import Mathlib

/-! Currency registration and genesis bootstrap: operation processors.

A shallow embedding of `currency/currency_register_process.go`,
`currency/genesis_currencies_process.go` and, in the namespace
`Mongodbstorage`, of `digest/mongodb/doc_base.go`.

* Go's result tuples are kept as tuples: a `nil` slice is `[]`, a `nil`
  error or rejection reason is `none`.
* Collaborators that live in other modules (state keys, account
  construction, signature checking) are fields of `Env`; nothing is assumed
  about them unless a theorem says so.
* `big.Int` magnitudes are `Int`.
-/

set_option autoImplicit false

namespace Currency

/-! ## Data model -/

abbrev CurrencyID := String
abbrev Address := String
abbrev Context := Nat
abbrev NodeSign := String
abbrev Suffrage := List String
abbrev Threshold := Rat

/-- Go `error` values. `reason` is `base.NewBaseOperationProcessReasonError`
(format, arguments, the error wrapped by `%w`); `errorf` is `errors.Errorf`;
`missingState` and `conflictingState` are the two signals of the precondition
checker; `external` is an error produced by a collaborator; `runtimeFault` is a
Go run-time fault (nil dereference, index out of range, failed forced type
assertion). `stopProcessingRetry` is `isaac.ErrStopProcessingRetry.Errorf`;
`stringError` and `stringErrorWrap` are what the function made by
`util.StringErrorFunc(context)` returns, for a nil and for a non-nil error. -/
inductive Error where
  | errorf (format : String) (args : List String)
  | external (tag : String)
  | missingState (what : String)
  | conflictingState (what : String)
  | runtimeFault (what : String)
  | stopProcessingRetry (msg : String)
  | stringError (context : String) (format : String) (args : List String)
  | stringErrorWrap (context : String) (cause : Error)
  | reason (format : String) (args : List String) (cause : Error)
  deriving DecidableEq, Repr

/-- Test `errors.Is(err, isaac.ErrStopProcessingRetry)`: the error is, or wraps,
the retry signal. -/
def Error.isStopProcessingRetry : Error → Bool
  | .stopProcessingRetry _ => true
  | .stringErrorWrap _ cause => cause.isStopProcessingRetry
  | .reason _ _ cause => cause.isStopProcessingRetry
  | _ => false

/-- The format string of a rejection reason, when the error is one. -/
def Error.format? : Error → Option String
  | .reason f _ _ => some f
  | _ => none

/-- The type `currency.Amount`: a magnitude and a CurrencyID. -/
structure Amount where
  big : Int
  cid : CurrencyID
  deriving DecidableEq, Repr

/-- Method `Amount.Currency()`. -/
def Amount.Currency (a : Amount) : CurrencyID := a.cid

/-- Method `Amount.Big()`. -/
def Amount.Big (a : Amount) : Int := a.big

/-- Method `Amount.WithBig(big)`: same currency, new magnitude. -/
def Amount.WithBig (a : Amount) (b : Int) : Amount := { a with big := b }

/-- Function `currency.NewZeroAmount(cid)`. -/
def NewZeroAmount (cid : CurrencyID) : Amount := { big := 0, cid := cid }

/-- A fee computation strategy; only its optional receiver is read here. -/
structure Feeer where
  kind : String
  receiver : Option Address
  deriving DecidableEq, Repr

/-- Method `Feeer.Receiver()`. -/
def Feeer.Receiver (f : Feeer) : Option Address := f.receiver

structure CurrencyPolicy where
  newAccountMinBalance : Int
  feeer : Feeer
  deriving DecidableEq, Repr

/-- Method `CurrencyPolicy.Feeer()`. -/
def CurrencyPolicy.Feeer (p : CurrencyPolicy) : Feeer := p.feeer

structure CurrencyDesign where
  amount : Amount
  genesisAccount : Address
  policy : CurrencyPolicy
  deriving DecidableEq, Repr

/-- Method `CurrencyDesign.Policy()`. -/
def CurrencyDesign.Policy (d : CurrencyDesign) : CurrencyPolicy := d.policy

abbrev AccountKeys := List String

/-- The type `currency.Account`; a zero account has no keys. -/
structure Account where
  address : Address
  keys : Option AccountKeys
  deriving DecidableEq, Repr

/-- Method `Account.Address()`. -/
def Account.Address (ac : Account) : Address := ac.address

/-- Values stored in, or merged into, the state. -/
inductive StateValue where
  | balance (amount : Amount)
  | account (ac : Account)
  | currencyDesign (de : CurrencyDesign)
  | suffrageNodes (nodes : Option Suffrage)
  | other (tag : String)
  deriving DecidableEq, Repr

/-- What `%T` prints for a state value. -/
def StateValue.typeName : StateValue → String
  | .balance _ => "currency.BalanceStateValue"
  | .account _ => "currency.AccountStateValue"
  | .currencyDesign _ => "currency.CurrencyDesignStateValue"
  | .suffrageNodes _ => "isaac.SuffrageNodesStateValue"
  | .other tag => tag

/-- Function `currency.NewBalanceStateValue`. -/
def NewBalanceStateValue (a : Amount) : StateValue := .balance a

/-- Function `currency.NewAccountStateValue`. -/
def NewAccountStateValue (ac : Account) : StateValue := .account ac

/-- Function `NewCurrencyDesignStateValue`. -/
def NewCurrencyDesignStateValue (de : CurrencyDesign) : StateValue := .currencyDesign de

/-- The three kinds of delta the processors build; each constructor is the
Go constructor of the same name, applied to a key and a state value. -/
inductive StateMergeValue where
  | NewBalanceStateMergeValue (key : String) (value : StateValue)
  | NewAccountStateMergeValue (key : String) (value : StateValue)
  | NewCurrencyDesignStateMergeValue (key : String) (value : StateValue)
  deriving DecidableEq, Repr

export StateMergeValue (NewBalanceStateMergeValue NewAccountStateMergeValue
  NewCurrencyDesignStateMergeValue)

/-- Method `StateMergeValue.Key()`. -/
def StateMergeValue.Key : StateMergeValue → String
  | .NewBalanceStateMergeValue k _ => k
  | .NewAccountStateMergeValue k _ => k
  | .NewCurrencyDesignStateMergeValue k _ => k

/-- Method `StateMergeValue.Value()`. -/
def StateMergeValue.Value : StateMergeValue → StateValue
  | .NewBalanceStateMergeValue _ v => v
  | .NewAccountStateMergeValue _ v => v
  | .NewCurrencyDesignStateMergeValue _ v => v

/-- The type `base.State`: a key and, possibly, a value. -/
structure State where
  key : String
  value : Option StateValue
  deriving DecidableEq, Repr

/-- Method `State.Key()`. -/
def State.Key (st : State) : String := st.key

/-- What `base.GetStateFunc` returns: `(state, found, err)`. -/
structure GetResult where
  st : Option State
  found : Bool
  err : Option Error
  deriving DecidableEq, Repr

abbrev GetStateFunc := String → GetResult

/-- The key is readable and holds no value. -/
def absent (get : GetStateFunc) (k : String) : Prop :=
  (get k).err = none ∧ (get k).found = false

/-- The key is readable and holds a value. -/
def present (get : GetStateFunc) (k : String) : Prop :=
  (get k).err = none ∧ (get k).found = true

instance (get : GetStateFunc) (k : String) : Decidable (absent get k) := by
  unfold absent; infer_instance

instance (get : GetStateFunc) (k : String) : Decidable (present get k) := by
  unfold present; infer_instance

/-! ## Facts and operations -/

structure CurrencyRegisterFact where
  currency : CurrencyDesign
  deriving DecidableEq, Repr

structure GenesisCurrenciesFact where
  keys : AccountKeys
  cs : List CurrencyDesign
  deriving DecidableEq, Repr

/-- The dynamic type of a `base.Fact`. -/
inductive Fact where
  | currencyRegister (f : CurrencyRegisterFact)
  | genesisCurrencies (f : GenesisCurrenciesFact)
  | other (tag : String)
  deriving DecidableEq, Repr

/-- What `%T` prints for a fact. -/
def Fact.typeName : Fact → String
  | .currencyRegister _ => "currency.CurrencyRegisterFact"
  | .genesisCurrencies _ => "currency.GenesisCurrenciesFact"
  | .other tag => tag

/-- The operation type `CurrencyRegister`: a node operation, with a fact and
node signatures. -/
structure CurrencyRegister where
  fact : Fact
  nodeSigns : List NodeSign
  deriving DecidableEq, Repr

/-- The operation type `GenesisCurrencies`. -/
structure GenesisCurrencies where
  fact : Fact
  deriving DecidableEq, Repr

/-- Method `GenesisCurrencies.Fact()`. -/
def GenesisCurrencies.Fact (op : GenesisCurrencies) : Fact := op.fact

/-- Method `CurrencyRegister.NodeSigns()`. -/
def CurrencyRegister.NodeSigns (op : CurrencyRegister) : List NodeSign := op.nodeSigns

/-- The dynamic type of a `base.Operation`. -/
inductive Operation where
  | currencyRegister (op : CurrencyRegister)
  | genesisCurrencies (op : GenesisCurrencies)
  | other (tag : String) (fact : Fact)
  deriving DecidableEq, Repr

/-- Method `Operation.Fact()`. -/
def Operation.Fact : Operation → Fact
  | .currencyRegister op => op.fact
  | .genesisCurrencies op => op.fact
  | .other _ f => f

/-- What `%T` prints for an operation. -/
def Operation.typeName : Operation → String
  | .currencyRegister _ => "currency.CurrencyRegister"
  | .genesisCurrencies _ => "currency.GenesisCurrencies"
  | .other tag _ => tag

/-! ## Collaborators -/

/-- Functions of other modules that the processors call. -/
structure Env where
  /-- Function `currency.StateKeyAccount`. -/
  StateKeyAccount : Address → String
  /-- Function `currency.StateKeyBalance`. -/
  StateKeyBalance : Address → CurrencyID → String
  /-- Function `StateKeyCurrencyDesign`. -/
  StateKeyCurrencyDesign : CurrencyID → String
  /-- Function `StateKeyContractAccount`. -/
  StateKeyContractAccount : Address → String
  /-- Function `currency.ZeroAccount`: the pool account of a currency. -/
  ZeroAccount : CurrencyID → Except Error Account
  /-- Function `currency.NewAccount`. -/
  NewAccount : Address → AccountKeys → Except Error Account
  /-- Method `GenesisCurrenciesFact.Address()`. -/
  factAddress : GenesisCurrenciesFact → Except Error Address
  /-- Function `base.CheckFactSignsBySuffrage`. -/
  CheckFactSignsBySuffrage : Option Suffrage → Threshold → List NodeSign → Option Error

/-! ## Precondition checker -/

/-- Modelled from the spec: `checkExistsState(key, get)` of the precondition
checker, whose source file is not part of the sources at hand. It fails with a
missing-state error unless a prior value is present at `key`; an error of the
accessor itself is handed on unchanged. -/
def checkExistsState (k : String) (get : GetStateFunc) : Option Error :=
  match (get k).err with
  | some e => some e
  | none => if (get k).found then none else some (.missingState k)

/-- Modelled from the spec: `checkNotExistsState(key, get)` of the precondition
checker, whose source file is not part of the sources at hand. It fails with a
conflicting-state error if a prior value is already present at `key`; an error
of the accessor itself is handed on unchanged. -/
def checkNotExistsState (k : String) (get : GetStateFunc) : Option Error :=
  match (get k).err with
  | some e => some e
  | none => if (get k).found then some (.conflictingState k) else none

/-- Modelled from the spec: `notExistsState(key, name, get)` of the
precondition checker, whose source file is not part of the sources at hand.
Like `checkNotExistsState`, and on success it hands back an empty state entry
for `key`, from which the callers take the key of the delta they build. -/
def notExistsState (k : String) (name : String) (get : GetStateFunc) : Except Error State :=
  match (get k).err with
  | some e => .error e
  | none => if (get k).found then .error (.conflictingState name) else .ok { key := k, value := none }

/-! ## Zero-account bootstrapper (`genesis_currencies_process.go`) -/

/-- Function `createZeroAccount(cid, getStateFunc)`. -/
def createZeroAccount (env : Env) (cid : CurrencyID) (getStateFunc : GetStateFunc) :
    Except Error (List StateMergeValue) :=
  match env.ZeroAccount cid with
  | .error err => .error err
  | .ok ac =>
    match notExistsState (env.StateKeyAccount ac.Address) "key of zero account" getStateFunc with
    | .error err => .error err
    | .ok ast =>
      let sts0 := NewAccountStateMergeValue ast.Key (NewAccountStateValue ac)
      match notExistsState (env.StateKeyBalance ac.Address cid) "key of zero account balance"
          getStateFunc with
      | .error err => .error err
      | .ok bst =>
        let sts1 := NewBalanceStateMergeValue bst.Key (NewBalanceStateValue (NewZeroAmount cid))
        .ok [sts0, sts1]

/-! ## Currency-register processor (`currency_register_process.go`) -/

abbrev Height := Int

/-- The type `base.BaseOperationProcessor`, built by a collaborator. -/
structure BaseOperationProcessor where
  height : Height
  deriving DecidableEq, Repr

/-- The type `CurrencyRegisterProcessor`: the embedded base processor (nil in a
fresh instance), the captured suffrage (possibly nil) and threshold. -/
structure CurrencyRegisterProcessor where
  suffrage : Option Suffrage
  threshold : Threshold
  baseOperationProcessor : Option BaseOperationProcessor := none
  deriving DecidableEq, Repr

/-- Method `CurrencyRegisterProcessor.PreProcess(ctx, op, getStateFunc)`;
the result is `(ctx, reason, err)`. -/
def CurrencyRegisterProcessor.PreProcess (env : Env) (opp : CurrencyRegisterProcessor)
    (ctx : Context) (op : Operation) (getStateFunc : GetStateFunc) :
    Context × Option Error × Option Error :=
  match op with
  | .currencyRegister nop =>
    match op.Fact with
    | .currencyRegister fact =>
      match env.CheckFactSignsBySuffrage opp.suffrage opp.threshold nop.NodeSigns with
      | some err => (ctx, some (.reason "not enough signs: %w" [] err), none)
      | none =>
      let item := fact.currency
      match checkNotExistsState (env.StateKeyCurrencyDesign item.amount.Currency) getStateFunc with
      | some err =>
        (ctx, some (.reason "currency design already exists, %q: %w" [item.amount.Currency] err),
          none)
      | none =>
      match checkExistsState (env.StateKeyAccount item.genesisAccount) getStateFunc with
      | some err =>
        (ctx, some (.reason "genesis account not found, %q: %w" [item.genesisAccount] err), none)
      | none =>
      match checkNotExistsState (env.StateKeyContractAccount item.genesisAccount)
          getStateFunc with
      | some err =>
        (ctx, some (.reason "contract account cannot be genesis account of currency, %q: %w"
          [item.genesisAccount] err), none)
      | none =>
      let receiverStep : Option Error :=
        match item.Policy.Feeer.Receiver with
        | some receiver =>
          match checkExistsState (env.StateKeyAccount receiver) getStateFunc with
          | some err => some (.reason "feeer receiver not found, %q: %w" [receiver] err)
          | none =>
            match checkNotExistsState (env.StateKeyContractAccount receiver) getStateFunc with
            | some err =>
              some (.reason "contract account cannot be fee receiver, %q: %w" [receiver] err)
            | none => none
        | none => none
      match receiverStep with
      | some r => (ctx, some r, none)
      | none =>
      match checkNotExistsState
          (env.StateKeyBalance item.genesisAccount item.amount.Currency) getStateFunc with
      | some err =>
        (ctx, some (.reason "account balance already exists, %q: %w"
          [env.StateKeyBalance item.genesisAccount item.amount.Currency] err), none)
      | none => (ctx, none, none)
    | f => (ctx, none, some (.errorf "expected CurrencyRegisterFact, not %T" [f.typeName]))
  | _ => (ctx, none, some (.errorf "expected CurrencyRegister, not %T" [op.typeName]))

/-- Method `CurrencyRegisterProcessor.Process(ctx, op, getStateFunc)`; the
result is `(deltas, reason, err)`. -/
def CurrencyRegisterProcessor.Process (env : Env) (_opp : CurrencyRegisterProcessor)
    (_ctx : Context) (op : Operation) (getStateFunc : GetStateFunc) :
    List StateMergeValue × Option Error × Option Error :=
  match op.Fact with
  | .currencyRegister fact =>
    let item := fact.currency
    let ba := NewBalanceStateValue item.amount
    let sts0 := NewBalanceStateMergeValue
      (env.StateKeyBalance item.genesisAccount item.amount.Currency) ba
    let de := NewCurrencyDesignStateValue item
    let sts1 := NewCurrencyDesignStateMergeValue
      (env.StateKeyCurrencyDesign item.amount.Currency) de
    match createZeroAccount env item.amount.Currency getStateFunc with
    | .error err =>
      ([], none, some (.reason "failed to create zero account, %q: %w" [item.amount.Currency] err))
    | .ok l =>
      match l with
      | l0 :: l1 :: _ => ([sts0, sts1, l0, l1], none, none)
      | _ => ([], none, some (.runtimeFault "index out of range"))
  | f => ([], none, some (.errorf "expected CurrencyRegisterFact, not %T" [f.typeName]))

/-! ## Genesis-currencies processor (`genesis_currencies_process.go`) -/

/-- A Go `map[CurrencyID]base.StateMergeValue`: the newest binding of a key
comes first and hides the older ones. -/
abbrev MergeMap := List (CurrencyID × StateMergeValue)

/-- Assignment `m[k] = v`. -/
def MergeMap.set (m : MergeMap) (k : CurrencyID) (v : StateMergeValue) : MergeMap :=
  (k, v) :: m

/-- Lookup `m[k]`; `none` is the nil interface of a missing key. -/
def MergeMap.get : MergeMap → CurrencyID → Option StateMergeValue
  | [], _ => none
  | (k0, v) :: rest, k => if k0 = k then some v else MergeMap.get rest k

/-- The first loop of `GenesisCurrencies.Process` (`for i := range fact.cs`),
from entry `i` on: `cs` holds the entries rewritten so far, `gas` and `sts` are
the two maps. An early `return` is the rejection reason. -/
def genesisCheckLoop (env : Env) (newAddress : Address) (getStateFunc : GetStateFunc) :
    List CurrencyDesign → List CurrencyDesign × MergeMap × MergeMap →
    Except Error (List CurrencyDesign × MergeMap × MergeMap)
  | [], acc => .ok acc
  | c0 :: rest, (cs, gas, sts) =>
    let c : CurrencyDesign := { c0 with genesisAccount := newAddress }
    let cs := cs ++ [c]
    match notExistsState (env.StateKeyCurrencyDesign c.amount.Currency) "currency"
        getStateFunc with
    | .error err =>
      .error (.reason "currency design already exists, %q: %w" [c.amount.Currency] err)
    | .ok st =>
      let sts := sts.set c.amount.Currency
        (NewCurrencyDesignStateMergeValue st.Key (NewCurrencyDesignStateValue c))
      match notExistsState (env.StateKeyBalance newAddress c.amount.Currency)
          "key of genesis balance" getStateFunc with
      | .error err => .error (.reason "account balance already exists, %q: %w" [newAddress] err)
      | .ok st =>
        let gas := gas.set c.amount.Currency
          (NewBalanceStateMergeValue st.Key
            (NewBalanceStateValue (NewZeroAmount c.amount.Currency)))
        genesisCheckLoop env newAddress getStateFunc rest (cs, gas, sts)

/-- The second loop of `GenesisCurrencies.Process` (`for i := range cs`), from
entry `i` on, with the deltas `smvs` appended so far; it ends in the
function result. -/
def genesisEmitLoop (env : Env) (getStateFunc : GetStateFunc) (gas sts : MergeMap) :
    List CurrencyDesign → List StateMergeValue →
    List StateMergeValue × Option Error × Option Error
  | [], smvs => (smvs, none, none)
  | c :: rest, smvs =>
    match gas.get c.amount.Currency, sts.get c.amount.Currency with
    | some g, some s =>
      match g.Value with
      | .balance vAmount =>
        let gst := NewBalanceStateMergeValue g.Key
          (NewBalanceStateValue (vAmount.WithBig (vAmount.Big + c.amount.Big)))
        let dst := NewCurrencyDesignStateMergeValue s.Key (NewCurrencyDesignStateValue c)
        let smvs := smvs ++ [gst, dst]
        match createZeroAccount env c.amount.Currency getStateFunc with
        | .error err =>
          ([], some (.reason "failed to create zero account, %q: %w" [c.amount.Currency] err),
            none)
        | .ok zsts => genesisEmitLoop env getStateFunc gas sts rest (smvs ++ zsts)
      | v => ([], none, some (.errorf "expected BalanceStateValue, not %T" [v.typeName]))
    | _, _ => ([], none, some (.runtimeFault "nil map entry"))

/-- Method `GenesisCurrencies.PreProcess(ctx, getStateFunc)`. -/
def GenesisCurrencies.PreProcess (_op : GenesisCurrencies) (ctx : Context)
    (_getStateFunc : GetStateFunc) : Context × Option Error × Option Error :=
  (ctx, none, none)

/-- Method `GenesisCurrencies.Process(ctx, getStateFunc)`; the result is
`(deltas, reason, err)`. -/
def GenesisCurrencies.Process (env : Env) (op : GenesisCurrencies) (_ctx : Context)
    (getStateFunc : GetStateFunc) : List StateMergeValue × Option Error × Option Error :=
  match op.Fact with
  | .genesisCurrencies fact =>
    match env.factAddress fact with
    | .error err => ([], none, some err)
    | .ok newAddress =>
      match notExistsState (env.StateKeyAccount newAddress) "key of genesis account"
          getStateFunc with
      | .error err =>
        ([], some (.reason "genesis account already exists, %q: %w" [newAddress] err), none)
      | .ok ns =>
        match genesisCheckLoop env newAddress getStateFunc fact.cs ([], [], []) with
        | .error reason => ([], some reason, none)
        | .ok (cs, gas, sts) =>
          match env.NewAccount newAddress fact.keys with
          | .error err => ([], none, some err)
          | .ok ac =>
            genesisEmitLoop env getStateFunc gas sts cs
              [NewAccountStateMergeValue ns.Key (NewAccountStateValue ac)]
  | f => ([], none, some (.errorf "expected GenesisCurrenciesFact, not %T" [f.typeName]))

/-! ## A concrete setting for the worked examples -/

/-- Keys and accounts spelled out as strings, every derivation succeeding, and
a signature check that asks for at least one signature. -/
def demoEnv : Env where
  StateKeyAccount := fun a => a ++ ":account"
  StateKeyBalance := fun a c => a ++ "-" ++ c ++ ":balance"
  StateKeyCurrencyDesign := fun c => "currencydesign:" ++ c
  StateKeyContractAccount := fun a => a ++ ":contractaccount"
  ZeroAccount := fun c => .ok { address := c ++ "-Xmca", keys := none }
  NewAccount := fun a ks => .ok { address := a, keys := some ks }
  factAddress := fun _ => .ok "F"
  CheckFactSignsBySuffrage := fun _ _ signs =>
    if signs = [] then some (.external "no signature") else none

/-- The empty state: every key is readable and holds nothing. -/
def emptyState : GetStateFunc := fun _ => { st := none, found := false, err := none }

/-- A state holding exactly the listed keys. -/
def stateOf (keys : List String) : GetStateFunc := fun k =>
  if k ∈ keys then { st := some { key := k, value := none }, found := true, err := none }
  else { st := none, found := false, err := none }

/-- The two deltas that bootstrap the pool account `z` of currency `cid`. -/
def zeroAccountDeltas (env : Env) (cid : CurrencyID) (z : Account) : List StateMergeValue :=
  [NewAccountStateMergeValue (env.StateKeyAccount z.Address) (NewAccountStateValue z),
   NewBalanceStateMergeValue (env.StateKeyBalance z.Address cid)
     (NewBalanceStateValue (NewZeroAmount cid))]

/-- The design of "USD" in the worked examples: amount 1000, genesis account
"A", no fee receiver. -/
def usdDesign : CurrencyDesign where
  amount := { big := 1000, cid := "USD" }
  genesisAccount := "A"
  policy := { newAccountMinBalance := 0, feeer := { kind := "nil", receiver := none } }

/-- A register operation for "USD" with one node signature. -/
def usdRegisterOp : CurrencyRegister where
  fact := .currencyRegister { currency := usdDesign }
  nodeSigns := ["node0"]

/-- The same operation as a `base.Operation`. -/
def usdRegister : Operation := .currencyRegister usdRegisterOp

/-- A register operation for "USD" whose fee policy names the receiver "R". -/
def usdFeeRegisterOp : CurrencyRegister where
  fact := .currencyRegister
    { currency :=
        { usdDesign with
          policy := { newAccountMinBalance := 0,
                      feeer := { kind := "fixed", receiver := some "R" } } } }
  nodeSigns := ["node0"]

/-- A processor that captured the suffrage `["node0"]` and the threshold 100. -/
def demoProcessor : CurrencyRegisterProcessor where
  suffrage := some ["node0"]
  threshold := 100

/-- The two pool deltas of a currency, when its pool account is derived. -/
def poolDeltas (env : Env) (cid : CurrencyID) : List StateMergeValue :=
  match env.ZeroAccount cid with
  | .ok z => zeroAccountDeltas env cid z
  | .error _ => []

/-- The four deltas of one genesis entry `c` under the founding address `F`. -/
def genesisEntryDeltas (env : Env) (F : Address) (c : CurrencyDesign) : List StateMergeValue :=
  [NewBalanceStateMergeValue (env.StateKeyBalance F c.amount.Currency)
     (NewBalanceStateValue c.amount),
   NewCurrencyDesignStateMergeValue (env.StateKeyCurrencyDesign c.amount.Currency)
     (NewCurrencyDesignStateValue { c with genesisAccount := F })] ++
  poolDeltas env c.amount.Currency

/-- The deltas of an accepted genesis operation: the founding account, then
the entries in the order of the fact. -/
def genesisDeltas (env : Env) (F : Address) (ac : Account) (cs : List CurrencyDesign) :
    List StateMergeValue :=
  NewAccountStateMergeValue (env.StateKeyAccount F) (NewAccountStateValue ac) ::
    cs.flatMap (genesisEntryDeltas env F)

/-- Both maps of `GenesisCurrencies.Process` hold at `cid` what the first
loop stores there: the zero balance under the balance key, some design under
the design key. -/
def mapsReady (env : Env) (F : Address) (gas sts : MergeMap) (cid : CurrencyID) : Prop :=
  gas.get cid = some (NewBalanceStateMergeValue (env.StateKeyBalance F cid)
    (NewBalanceStateValue (NewZeroAmount cid))) ∧
  ∃ v, sts.get cid = some (NewCurrencyDesignStateMergeValue (env.StateKeyCurrencyDesign cid) v)

/-- The state lets the genesis operation through: the founding account key is
absent, and for every entry the design key, the founding balance key and both
pool keys are absent, the pool account being derived. -/
def genesisClear (env : Env) (F : Address) (get : GetStateFunc) (cs : List CurrencyDesign) :
    Prop :=
  absent get (env.StateKeyAccount F) ∧
  (∀ c ∈ cs, absent get (env.StateKeyCurrencyDesign c.amount.Currency) ∧
    absent get (env.StateKeyBalance F c.amount.Currency)) ∧
  (∀ c ∈ cs, ∃ z, env.ZeroAccount c.amount.Currency = .ok z ∧
    absent get (env.StateKeyAccount z.Address) ∧
    absent get (env.StateKeyBalance z.Address c.amount.Currency))

/-- Modelled from the spec: the store's additive merge of balance deltas, which
is outside the sources at hand. The balance that results at `k` from the
deltas, starting from no balance, is the sum of the magnitudes carried by the
balance deltas with key `k`. -/
def balanceTotal (k : String) : List StateMergeValue → Int
  | [] => 0
  | .NewBalanceStateMergeValue k2 (.balance a) :: rest =>
    (if k2 = k then a.big else 0) + balanceTotal k rest
  | _ :: rest => balanceTotal k rest

/-- The keys of the account-create deltas, in order. -/
def accountKeys : List StateMergeValue → List String
  | [] => []
  | .NewAccountStateMergeValue k _ :: rest => k :: accountKeys rest
  | _ :: rest => accountKeys rest

/-- The keys of the currency-design deltas, in order. -/
def designKeys : List StateMergeValue → List String
  | [] => []
  | .NewCurrencyDesignStateMergeValue k _ :: rest => k :: designKeys rest
  | _ :: rest => designKeys rest

/-- The account key of the pool account of a currency, when it is derived. -/
def poolAccountKey (env : Env) (cid : CurrencyID) : Option String :=
  match env.ZeroAccount cid with
  | .ok z => some (env.StateKeyAccount z.Address)
  | .error _ => none

/-- A design for the worked genesis examples. -/
def mkDesign (cid : CurrencyID) (big : Int) (genesis : Address) : CurrencyDesign where
  amount := { big := big, cid := cid }
  genesisAccount := genesis
  policy := { newAccountMinBalance := 0, feeer := { kind := "nil", receiver := none } }

/-- The genesis fact of the specification's scenario: keys `["K"]` and the
currencies (USD, 1000), (USD, 500), (EUR, 200). -/
def scenarioFact : GenesisCurrenciesFact where
  keys := ["K"]
  cs := [mkDesign "USD" 1000 "X", mkDesign "USD" 500 "Y", mkDesign "EUR" 200 "X"]

/-- The genesis operation of the specification's scenario. -/
def scenarioGenesis : GenesisCurrencies where
  fact := .genesisCurrencies scenarioFact

/-- A genesis fact with pairwise distinct currencies. -/
def distinctFact : GenesisCurrenciesFact where
  keys := ["K"]
  cs := [mkDesign "USD" 1000 "X", mkDesign "EUR" 200 "X"]

/-- The genesis operation over `distinctFact`. -/
def distinctGenesis : GenesisCurrencies where
  fact := .genesisCurrencies distinctFact

/-- The thirteen deltas of the specification's genesis scenario under
`demoEnv`, spelled out. -/
def scenarioDeltas : List StateMergeValue :=
  [NewAccountStateMergeValue "F:account" (.account { address := "F", keys := some ["K"] }),
   NewBalanceStateMergeValue "F-USD:balance" (.balance { big := 1000, cid := "USD" }),
   NewCurrencyDesignStateMergeValue "currencydesign:USD"
     (.currencyDesign (mkDesign "USD" 1000 "F")),
   NewAccountStateMergeValue "USD-Xmca:account"
     (.account { address := "USD-Xmca", keys := none }),
   NewBalanceStateMergeValue "USD-Xmca-USD:balance" (.balance { big := 0, cid := "USD" }),
   NewBalanceStateMergeValue "F-USD:balance" (.balance { big := 500, cid := "USD" }),
   NewCurrencyDesignStateMergeValue "currencydesign:USD"
     (.currencyDesign (mkDesign "USD" 500 "F")),
   NewAccountStateMergeValue "USD-Xmca:account"
     (.account { address := "USD-Xmca", keys := none }),
   NewBalanceStateMergeValue "USD-Xmca-USD:balance" (.balance { big := 0, cid := "USD" }),
   NewBalanceStateMergeValue "F-EUR:balance" (.balance { big := 200, cid := "EUR" }),
   NewCurrencyDesignStateMergeValue "currencydesign:EUR"
     (.currencyDesign (mkDesign "EUR" 200 "F")),
   NewAccountStateMergeValue "EUR-Xmca:account"
     (.account { address := "EUR-Xmca", keys := none }),
   NewBalanceStateMergeValue "EUR-Xmca-EUR:balance" (.balance { big := 0, cid := "EUR" })]

/-- The deltas of `distinctGenesis` on the empty state under `demoEnv`. -/
def distinctDeltas : List StateMergeValue :=
  [NewAccountStateMergeValue "F:account" (.account { address := "F", keys := some ["K"] }),
   NewBalanceStateMergeValue "F-USD:balance" (.balance { big := 1000, cid := "USD" }),
   NewCurrencyDesignStateMergeValue "currencydesign:USD"
     (.currencyDesign (mkDesign "USD" 1000 "F")),
   NewAccountStateMergeValue "USD-Xmca:account"
     (.account { address := "USD-Xmca", keys := none }),
   NewBalanceStateMergeValue "USD-Xmca-USD:balance" (.balance { big := 0, cid := "USD" }),
   NewBalanceStateMergeValue "F-EUR:balance" (.balance { big := 200, cid := "EUR" }),
   NewCurrencyDesignStateMergeValue "currencydesign:EUR"
     (.currencyDesign (mkDesign "EUR" 200 "F")),
   NewAccountStateMergeValue "EUR-Xmca:account"
     (.account { address := "EUR-Xmca", keys := none }),
   NewBalanceStateMergeValue "EUR-Xmca-EUR:balance" (.balance { big := 0, cid := "EUR" })]

/-! ## Processor pool and constructor (`currency_register_process.go`) -/

/-- What a `sync.Pool` holds: values of any type. -/
inductive PoolItem where
  | processor (opp : CurrencyRegisterProcessor)
  | other (tag : String)
  deriving DecidableEq, Repr

/-- What `%T` prints for a pooled value. -/
def PoolItem.typeName : PoolItem → String
  | .processor _ => "*currency.CurrencyRegisterProcessor"
  | .other tag => tag

/-- The variable `currencyRegisterProcessorPool`, as explicit state: the
instances that were put back and not yet taken out again. -/
abbrev ProcessorPool := List PoolItem

/-- The `New` function of the pool: `new(CurrencyRegisterProcessor)`, all
fields zero. -/
def ProcessorPool.New : PoolItem :=
  .processor { suffrage := none, threshold := 0, baseOperationProcessor := none }

/-- Method `sync.Pool.Get`: a pooled value if there is one, a new one
otherwise; the result is the value and the pool without it. -/
def ProcessorPool.Get : ProcessorPool → PoolItem × ProcessorPool
  | [] => (ProcessorPool.New, [])
  | x :: rest => (x, rest)

/-- Method `sync.Pool.Put`. -/
def ProcessorPool.Put (pool : ProcessorPool) (x : PoolItem) : ProcessorPool := x :: pool

abbrev NewOperationProcessorProcessFunc := Option String

/-- Collaborators of the processor constructor. -/
structure ProcessorDeps where
  /-- Function `base.NewBaseOperationProcessor`. -/
  NewBaseOperationProcessor : Height → GetStateFunc → NewOperationProcessorProcessFunc →
    NewOperationProcessorProcessFunc → Except Error BaseOperationProcessor
  /-- The constant `isaac.SuffrageStateKey`. -/
  SuffrageStateKey : String
  /-- Method `SuffrageNodesStateValue.Suffrage()`, on the stored nodes. -/
  Suffrage : Option Suffrage → Except Error Suffrage

/-- The function returned by `NewCurrencyRegisterProcessor(threshold)`, run
against the pool; the result is `(processor, err)` and the pool afterwards. -/
def NewCurrencyRegisterProcessor (deps : ProcessorDeps) (threshold : Threshold)
    (height : Height) (getStateFunc : GetStateFunc)
    (newPreProcessConstraintFunc newProcessConstraintFunc : NewOperationProcessorProcessFunc)
    (pool : ProcessorPool) :
    (Option CurrencyRegisterProcessor × Option Error) × ProcessorPool :=
  let context := "failed to create new CurrencyRegisterProcessor"
  let (nopp, pool) := pool.Get
  match nopp with
  | .other _ =>
    ((none, some (.stringError context "expected CurrencyRegisterProcessor, not %T"
      [nopp.typeName])), pool)
  | .processor opp =>
    match deps.NewBaseOperationProcessor height getStateFunc newPreProcessConstraintFunc
        newProcessConstraintFunc with
    | .error err => ((none, some (.stringErrorWrap context err)), pool)
    | .ok b =>
      let opp := { opp with baseOperationProcessor := some b }
      let opp := { opp with threshold := threshold }
      let r := getStateFunc deps.SuffrageStateKey
      match r.err with
      | some err => ((none, some (.stringErrorWrap context err)), pool)
      | none =>
        match r.found, r.st with
        | true, some i =>
          match i.value with
          | some (.suffrageNodes sufstv) =>
            match deps.Suffrage sufstv with
            | .error _ =>
              ((none, some (.stringErrorWrap context
                (.stopProcessingRetry "failed to get suffrage from state"))), pool)
            | .ok suf => ((some { opp with suffrage := some suf }, none), pool)
          | _ => ((none, some (.runtimeFault "interface conversion")), pool)
        | _, _ =>
          ((none, some (.stringErrorWrap context (.stopProcessingRetry "empty state"))), pool)

/-- Method `CurrencyRegisterProcessor.Close()`; the result is the returned
error, the instance as it is left, and the pool afterwards. -/
def CurrencyRegisterProcessor.Close (opp : CurrencyRegisterProcessor) (pool : ProcessorPool) :
    Option Error × CurrencyRegisterProcessor × ProcessorPool :=
  let opp := { opp with suffrage := none }
  let opp := { opp with threshold := 0 }
  (none, opp, pool.Put (.processor opp))

/-- Transcription of method `CurrencyRegister.Process`, which does nothing. -/
def CurrencyRegister.Process (_op : CurrencyRegister) (_ctx : Context)
    (_getStateFunc : GetStateFunc) : List StateMergeValue × Option Error × Option Error :=
  ([], none, none)

/-- Collaborators for the worked examples: the base processor is always built,
the suffrage key is "suffrage", and a suffrage is derived from any stored node
list that is present and not empty. -/
def demoDeps : ProcessorDeps where
  NewBaseOperationProcessor := fun h _ _ _ => .ok { height := h }
  SuffrageStateKey := "suffrage"
  Suffrage := fun nodes =>
    match nodes with
    | some (n :: ns) => .ok (n :: ns)
    | _ => .error (.external "empty suffrage")

/-- A state that holds exactly the given nodes under the suffrage key. -/
def suffrageState (nodes : Option Suffrage) : GetStateFunc := fun k =>
  if k = "suffrage" then
    { st := some { key := k, value := some (.suffrageNodes nodes) }, found := true, err := none }
  else { st := none, found := false, err := none }

end Currency

/-! ## Documents of the read index (`digest/mongodb/doc_base.go`) -/

namespace Mongodbstorage

/-- The type `hint.Hint`: a type name and a version. -/
structure Hint where
  name : String
  version : String
  deriving DecidableEq, Repr

/-- A Go `interface{}` value: nil, a value whose type implements
`hint.Hinter`, or any other value. -/
inductive Value where
  | nil
  | hinter (hint : Hint) (repr : String)
  | plain (repr : String)
  deriving DecidableEq, Repr

/-- Type assertion `data.(hint.Hinter)`, its `ok` result. -/
def Value.isHinter : Value → Bool
  | .hinter _ _ => true
  | _ => false

/-- The interface `encoder.Encoder`, of which only `Hint()` is called. -/
structure Encoder where
  hint : Hint
  deriving DecidableEq, Repr

/-- Method `Encoder.Hint()`. -/
def Encoder.Hint (enc : Encoder) : Hint := enc.hint

/-- The values stored in a `bson.M`. -/
inductive BsonValue where
  | string (s : String)
  | bool (b : Bool)
  | value (v : Value)
  deriving DecidableEq, Repr

/-- The type `bson.M`, a Go map from strings: every key occurs once. -/
abbrev BsonM := List (String × BsonValue)

/-- Assignment `m[k] = v`. -/
def BsonM.set (m : BsonM) (k : String) (v : BsonValue) : BsonM :=
  (k, v) :: m.filter (fun kv => kv.1 ≠ k)

/-- Lookup `m[k]`. -/
def BsonM.get : BsonM → String → Option BsonValue
  | [], _ => none
  | (k0, v) :: rest, k => if k0 = k then some v else BsonM.get rest k

/-- The keys of the map. -/
def BsonM.keys (m : BsonM) : List String := m.map (fun kv => kv.1)

/-- The type `BaseDoc`. -/
structure BaseDoc where
  id : Value
  encoderHint : Hint
  data : Value
  isHinted : Bool
  deriving DecidableEq, Repr

/-- Function `NewBaseDoc(id, data, enc)`; the result is `(doc, err)`. -/
def NewBaseDoc (id data : Value) (enc : Encoder) : BaseDoc × Option Currency.Error :=
  let isHinted := data.isHinter
  ({ id := id, encoderHint := enc.Hint, isHinted := isHinted, data := data }, none)

/-- Method `BaseDoc.ID()`. -/
def BaseDoc.ID (doc : BaseDoc) : Value := doc.id

/-- Method `BaseDoc.M()`; `hintString` is `hint.Hint.String`, of another
module; the result is `(m, err)`. -/
def BaseDoc.M (hintString : Hint → String) (doc : BaseDoc) : BsonM × Option Currency.Error :=
  let m : BsonM := BsonM.set (BsonM.set (BsonM.set [] "_e"
    (.string (hintString doc.encoderHint))) "_hinted" (.bool doc.isHinted)) "d"
    (.value doc.data)
  let m : BsonM := if doc.id ≠ .nil then BsonM.set m "_id" (.value doc.id) else m
  (m, none)

/-- A rendering of hints for the worked example. -/
def demoHintString (h : Hint) : String := h.name ++ "-" ++ h.version

end Mongodbstorage

namespace Currency

/-! # Properties -/

/-! ## The precondition checker, characterised -/

theorem checkNotExistsState_eq_none_iff (k : String) (get : GetStateFunc) :
    checkNotExistsState k get = none ↔ absent get k := by
  unfold checkNotExistsState absent
  cases h : (get k).err <;> cases h2 : (get k).found <;> simp

theorem checkExistsState_eq_none_iff (k : String) (get : GetStateFunc) :
    checkExistsState k get = none ↔ present get k := by
  unfold checkExistsState present
  cases h : (get k).err <;> cases h2 : (get k).found <;> simp

theorem checkNotExistsState_of_present (k : String) (get : GetStateFunc)
    (h : present get k) : checkNotExistsState k get = some (.conflictingState k) := by
  unfold checkNotExistsState; rw [h.1]; simp [h.2]

theorem notExistsState_of_absent (k name : String) (get : GetStateFunc)
    (h : absent get k) : notExistsState k name get = .ok { key := k, value := none } := by
  unfold notExistsState; rw [h.1]; simp [h.2]

theorem notExistsState_of_present (k name : String) (get : GetStateFunc)
    (h : present get k) : notExistsState k name get = .error (.conflictingState name) := by
  unfold notExistsState; rw [h.1]; simp [h.2]

theorem notExistsState_ok_iff (k name : String) (get : GetStateFunc) (st : State) :
    notExistsState k name get = .ok st ↔ absent get k ∧ st = { key := k, value := none } := by
  unfold notExistsState absent
  cases h : (get k).err <;> cases h2 : (get k).found <;> simp [eq_comm]

theorem notExistsState_error_of_not_absent (k name : String) (get : GetStateFunc)
    (h : ¬ absent get k) : ∃ e, notExistsState k name get = .error e := by
  cases hr : notExistsState k name get with
  | error e => exact ⟨e, rfl⟩
  | ok st => exact absurd ((notExistsState_ok_iff k name get st).1 hr).1 h

/-! ## The zero-account bootstrapper -/

theorem createZeroAccount_ok_iff (env : Env) (cid : CurrencyID) (get : GetStateFunc)
    (l : List StateMergeValue) :
    createZeroAccount env cid get = .ok l ↔
      ∃ z, env.ZeroAccount cid = .ok z ∧ absent get (env.StateKeyAccount z.Address) ∧
        absent get (env.StateKeyBalance z.Address cid) ∧ l = zeroAccountDeltas env cid z := by
  unfold createZeroAccount
  cases hz : env.ZeroAccount cid with
  | error e => simp
  | ok z =>
    simp only [Except.ok.injEq, exists_eq_left']
    cases h1 : notExistsState (env.StateKeyAccount z.Address) "key of zero account" get with
    | error e =>
      have : ¬ absent get (env.StateKeyAccount z.Address) := fun ha => by
        rw [notExistsState_of_absent _ _ _ ha] at h1; cases h1
      simp [this]
    | ok ast =>
      obtain ⟨ha, rfl⟩ := (notExistsState_ok_iff _ _ _ _).1 h1
      cases h2 : notExistsState (env.StateKeyBalance z.Address cid)
          "key of zero account balance" get with
      | error e =>
        have : ¬ absent get (env.StateKeyBalance z.Address cid) := fun hb => by
          rw [notExistsState_of_absent _ _ _ hb] at h2; cases h2
        simp [this]
      | ok bst =>
        obtain ⟨hb, rfl⟩ := (notExistsState_ok_iff _ _ _ _).1 h2
        simp [ha, hb, zeroAccountDeltas, State.Key, eq_comm]

/-- C10: `createZeroAccount(cid, get)` returns either an error (and no deltas)
or exactly two deltas, the account-create delta at `StateKeyAccount(Z)` carrying
the zero account of `cid` followed by the balance-create delta at
`StateKeyBalance(Z, cid)` carrying the zero amount of `cid`, where `Z` is the
address of the derived pool account. It succeeds exactly when the derivation
succeeds and both keys are absent; a present pool-account key is a conflict, and
so is a present pool-balance key when the pool-account key is absent. -/
theorem createZeroAccount_both_or_neither (env : Env) (cid : CurrencyID)
    (get : GetStateFunc) :
    ((∃ e, createZeroAccount env cid get = .error e) ∨
      ∃ z, env.ZeroAccount cid = .ok z ∧
        createZeroAccount env cid get = .ok
          [NewAccountStateMergeValue (env.StateKeyAccount z.Address) (NewAccountStateValue z),
           NewBalanceStateMergeValue (env.StateKeyBalance z.Address cid)
             (NewBalanceStateValue (NewZeroAmount cid))]) ∧
    ((∃ l, createZeroAccount env cid get = .ok l) ↔
      ∃ z, env.ZeroAccount cid = .ok z ∧ absent get (env.StateKeyAccount z.Address) ∧
        absent get (env.StateKeyBalance z.Address cid)) ∧
    (∀ z, env.ZeroAccount cid = .ok z → present get (env.StateKeyAccount z.Address) →
      createZeroAccount env cid get = .error (.conflictingState "key of zero account")) ∧
    (∀ z, env.ZeroAccount cid = .ok z → absent get (env.StateKeyAccount z.Address) →
      present get (env.StateKeyBalance z.Address cid) →
      createZeroAccount env cid get =
        .error (.conflictingState "key of zero account balance")) := by
  refine ⟨?_, ?_, ?_, ?_⟩
  · cases h : createZeroAccount env cid get with
    | error e => exact Or.inl ⟨e, rfl⟩
    | ok l =>
      obtain ⟨z, hz, -, -, rfl⟩ := (createZeroAccount_ok_iff env cid get l).1 h
      exact Or.inr ⟨z, hz, rfl⟩
  · constructor
    · rintro ⟨l, hl⟩
      obtain ⟨z, hz, ha, hb, -⟩ := (createZeroAccount_ok_iff env cid get l).1 hl
      exact ⟨z, hz, ha, hb⟩
    · rintro ⟨z, hz, ha, hb⟩
      exact ⟨_, (createZeroAccount_ok_iff env cid get _).2 ⟨z, hz, ha, hb, rfl⟩⟩
  · intro z hz hp
    unfold createZeroAccount
    rw [hz]
    simp only [notExistsState_of_present _ _ _ hp]
  · intro z hz ha hp
    unfold createZeroAccount
    rw [hz]
    simp only [notExistsState_of_absent _ _ _ ha, notExistsState_of_present _ _ _ hp]

/-- C10, worked: on the empty state the pool of "USD" is bootstrapped with its
two deltas; once the pool balance key alone is there, the call is a conflict. -/
theorem createZeroAccount_both_or_neither_witness :
    (∃ l, createZeroAccount demoEnv "USD" emptyState = .ok l) ∧
    createZeroAccount demoEnv "USD" (stateOf ["USD-Xmca-USD:balance"]) =
      .error (.conflictingState "key of zero account balance") :=
  ⟨(createZeroAccount_both_or_neither demoEnv "USD" emptyState).2.1.2
      ⟨{ address := "USD-Xmca", keys := none }, rfl, by decide, by decide⟩,
   (createZeroAccount_both_or_neither demoEnv "USD"
      (stateOf ["USD-Xmca-USD:balance"])).2.2.2
      { address := "USD-Xmca", keys := none } rfl (by decide) (by decide)⟩

/-! ## Currency-register processor: `Process` -/

/-- C1: for an operation whose fact is a `CurrencyRegisterFact` with design `d`
(CurrencyID `c`, amount `a`, genesis account `g`), the pool account `z` of `c`
being derived, and a state in which neither the pool-account key nor the pool
balance key of `c` is present, `Process` returns no rejection reason, no error
and exactly four deltas in this order: the balance delta at
`StateKeyBalance(g, c)` carrying `a`, the design delta at
`StateKeyCurrencyDesign(c)` carrying `d`, the account delta at
`StateKeyAccount(pool address)` carrying the zero account, the balance delta at
`StateKeyBalance(pool address, c)` carrying the zero amount of `c`. -/
theorem register_Process_four_deltas (env : Env) (opp : CurrencyRegisterProcessor)
    (ctx : Context) (op : Operation) (fact : CurrencyRegisterFact) (z : Account)
    (get : GetStateFunc)
    (hfact : op.Fact = .currencyRegister fact)
    (hz : env.ZeroAccount fact.currency.amount.Currency = .ok z)
    (hacc : absent get (env.StateKeyAccount z.Address))
    (hbal : absent get (env.StateKeyBalance z.Address fact.currency.amount.Currency)) :
    opp.Process env ctx op get =
      ([NewBalanceStateMergeValue
          (env.StateKeyBalance fact.currency.genesisAccount fact.currency.amount.Currency)
          (NewBalanceStateValue fact.currency.amount),
        NewCurrencyDesignStateMergeValue
          (env.StateKeyCurrencyDesign fact.currency.amount.Currency)
          (NewCurrencyDesignStateValue fact.currency),
        NewAccountStateMergeValue (env.StateKeyAccount z.Address) (NewAccountStateValue z),
        NewBalanceStateMergeValue
          (env.StateKeyBalance z.Address fact.currency.amount.Currency)
          (NewBalanceStateValue (NewZeroAmount fact.currency.amount.Currency))],
       none, none) := by
  have hc := (createZeroAccount_ok_iff env fact.currency.amount.Currency get _).2
    ⟨z, hz, hacc, hbal, rfl⟩
  unfold CurrencyRegisterProcessor.Process
  rw [hfact]
  simp only [hc, zeroAccountDeltas]

/-- C1, worked: the scenario of the specification, on a state that holds the
genesis account "A" only. -/
theorem register_Process_four_deltas_witness :
    demoProcessor.Process demoEnv 0 usdRegister (stateOf ["A:account"]) =
      ([NewBalanceStateMergeValue "A-USD:balance" (.balance { big := 1000, cid := "USD" }),
        NewCurrencyDesignStateMergeValue "currencydesign:USD" (.currencyDesign usdDesign),
        NewAccountStateMergeValue "USD-Xmca:account"
          (.account { address := "USD-Xmca", keys := none }),
        NewBalanceStateMergeValue "USD-Xmca-USD:balance" (.balance { big := 0, cid := "USD" })],
       none, none) :=
  register_Process_four_deltas demoEnv demoProcessor 0 usdRegister { currency := usdDesign }
    { address := "USD-Xmca", keys := none } (stateOf ["A:account"]) rfl rfl
    (by decide) (by decide)

/-! ## Currency-register processor: `PreProcess` -/

/-- C2: for a `CurrencyRegister` operation carrying a `CurrencyRegisterFact`
(CurrencyID `c`, genesis account `g`, optional fee receiver `r`) and a state
accessor that never returns an error, `PreProcess` accepts (no rejection
reason, no error) exactly when the signatures satisfy the captured suffrage and
threshold, the design key of `c` is absent, the account key of `g` is present,
the contract-account key of `g` is absent, the receiver, if named, has its
account key present and its contract-account key absent, and the balance key
`(g, c)` is absent. Without a receiver the result is the same for any two
accessors that agree on the design, genesis-account, genesis-contract and
genesis-balance keys. -/
theorem register_PreProcess_accepts_iff (env : Env) (opp : CurrencyRegisterProcessor)
    (ctx : Context) (nop : CurrencyRegister) (fact : CurrencyRegisterFact)
    (get : GetStateFunc)
    (hfact : nop.fact = .currencyRegister fact)
    (hget : ∀ k, (get k).err = none) :
    ((opp.PreProcess env ctx (.currencyRegister nop) get).2 = (none, none) ↔
      env.CheckFactSignsBySuffrage opp.suffrage opp.threshold nop.NodeSigns = none ∧
      (get (env.StateKeyCurrencyDesign fact.currency.amount.Currency)).found = false ∧
      (get (env.StateKeyAccount fact.currency.genesisAccount)).found = true ∧
      (get (env.StateKeyContractAccount fact.currency.genesisAccount)).found = false ∧
      (∀ r, fact.currency.Policy.Feeer.Receiver = some r →
        (get (env.StateKeyAccount r)).found = true ∧
        (get (env.StateKeyContractAccount r)).found = false) ∧
      (get (env.StateKeyBalance fact.currency.genesisAccount
        fact.currency.amount.Currency)).found = false) ∧
    (fact.currency.Policy.Feeer.Receiver = none →
      ∀ get2 : GetStateFunc,
        get2 (env.StateKeyCurrencyDesign fact.currency.amount.Currency) =
          get (env.StateKeyCurrencyDesign fact.currency.amount.Currency) →
        get2 (env.StateKeyAccount fact.currency.genesisAccount) =
          get (env.StateKeyAccount fact.currency.genesisAccount) →
        get2 (env.StateKeyContractAccount fact.currency.genesisAccount) =
          get (env.StateKeyContractAccount fact.currency.genesisAccount) →
        get2 (env.StateKeyBalance fact.currency.genesisAccount fact.currency.amount.Currency) =
          get (env.StateKeyBalance fact.currency.genesisAccount
            fact.currency.amount.Currency) →
        opp.PreProcess env ctx (.currencyRegister nop) get2 =
          opp.PreProcess env ctx (.currencyRegister nop) get) := by
  have ha : ∀ k, (get k).found = false ↔ checkNotExistsState k get = none := fun k => by
    simp [checkNotExistsState_eq_none_iff, absent, hget]
  have hp : ∀ k, (get k).found = true ↔ checkExistsState k get = none := fun k => by
    simp [checkExistsState_eq_none_iff, present, hget]
  constructor
  · simp only [CurrencyRegisterProcessor.PreProcess, Operation.Fact, hfact, ha, hp]
    cases env.CheckFactSignsBySuffrage opp.suffrage opp.threshold nop.NodeSigns <;>
    cases checkNotExistsState (env.StateKeyCurrencyDesign fact.currency.amount.Currency) get <;>
    cases checkExistsState (env.StateKeyAccount fact.currency.genesisAccount) get <;>
    cases checkNotExistsState (env.StateKeyContractAccount fact.currency.genesisAccount) get <;>
    cases checkNotExistsState
      (env.StateKeyBalance fact.currency.genesisAccount fact.currency.amount.Currency) get <;>
    cases hr : fact.currency.Policy.Feeer.Receiver <;> simp
    all_goals
      rename_i r
      cases checkExistsState (env.StateKeyAccount r) get <;>
      cases checkNotExistsState (env.StateKeyContractAccount r) get <;> simp
  · intro hr get2 h1 h2 h3 h4
    simp only [CurrencyRegisterProcessor.PreProcess, Operation.Fact, hfact, hr,
      checkNotExistsState, checkExistsState, h1, h2, h3, h4]
/-- C3: `PreProcess` returns a fatal error exactly when the operation is not a
`CurrencyRegister` or its fact is not a `CurrencyRegisterFact`. Otherwise the
fatal error is nil and the result is decided by the first failing check, in the
order signatures, design absent, genesis account present, genesis account not a
contract account, fee receiver present, fee receiver not a contract account,
genesis balance absent; each failure has its own reason, the seven reasons are
pairwise different, and when no check fails the operation is accepted. -/
theorem register_PreProcess_first_failing_check (env : Env)
    (opp : CurrencyRegisterProcessor) (ctx : Context) (op : Operation) (get : GetStateFunc) :
    ((opp.PreProcess env ctx op get).2.2 ≠ none ↔
      ¬ ∃ nop d, op = .currencyRegister nop ∧ nop.fact = .currencyRegister { currency := d }) ∧
    (∀ nop d, op = .currencyRegister nop → nop.fact = .currencyRegister { currency := d } →
      (opp.PreProcess env ctx op get).2.2 = none ∧
      (env.CheckFactSignsBySuffrage opp.suffrage opp.threshold nop.NodeSigns ≠ none →
        ∃ e, opp.PreProcess env ctx op get =
          (ctx, some (.reason "not enough signs: %w" [] e), none)) ∧
      (env.CheckFactSignsBySuffrage opp.suffrage opp.threshold nop.NodeSigns = none →
        (¬ absent get (env.StateKeyCurrencyDesign d.amount.Currency) →
          ∃ e, opp.PreProcess env ctx op get =
            (ctx, some (.reason "currency design already exists, %q: %w"
              [d.amount.Currency] e), none)) ∧
        (absent get (env.StateKeyCurrencyDesign d.amount.Currency) →
          (¬ present get (env.StateKeyAccount d.genesisAccount) →
            ∃ e, opp.PreProcess env ctx op get =
              (ctx, some (.reason "genesis account not found, %q: %w"
                [d.genesisAccount] e), none)) ∧
          (present get (env.StateKeyAccount d.genesisAccount) →
            (¬ absent get (env.StateKeyContractAccount d.genesisAccount) →
              ∃ e, opp.PreProcess env ctx op get =
                (ctx, some (.reason
                  "contract account cannot be genesis account of currency, %q: %w"
                  [d.genesisAccount] e), none)) ∧
            (absent get (env.StateKeyContractAccount d.genesisAccount) →
              (∀ r, d.Policy.Feeer.Receiver = some r →
                ¬ present get (env.StateKeyAccount r) →
                ∃ e, opp.PreProcess env ctx op get =
                  (ctx, some (.reason "feeer receiver not found, %q: %w" [r] e), none)) ∧
              (∀ r, d.Policy.Feeer.Receiver = some r →
                present get (env.StateKeyAccount r) →
                ¬ absent get (env.StateKeyContractAccount r) →
                ∃ e, opp.PreProcess env ctx op get =
                  (ctx, some (.reason "contract account cannot be fee receiver, %q: %w"
                    [r] e), none)) ∧
              ((∀ r, d.Policy.Feeer.Receiver = some r →
                  present get (env.StateKeyAccount r) ∧
                  absent get (env.StateKeyContractAccount r)) →
                (¬ absent get (env.StateKeyBalance d.genesisAccount d.amount.Currency) →
                  ∃ e, opp.PreProcess env ctx op get =
                    (ctx, some (.reason "account balance already exists, %q: %w"
                      [env.StateKeyBalance d.genesisAccount d.amount.Currency] e), none)) ∧
                (absent get (env.StateKeyBalance d.genesisAccount d.amount.Currency) →
                  opp.PreProcess env ctx op get = (ctx, none, none)))))))) ∧
    ["not enough signs: %w",
     "currency design already exists, %q: %w",
     "genesis account not found, %q: %w",
     "contract account cannot be genesis account of currency, %q: %w",
     "feeer receiver not found, %q: %w",
     "contract account cannot be fee receiver, %q: %w",
     "account balance already exists, %q: %w"].Nodup := by
  have key : ∀ nop d, op = .currencyRegister nop →
      nop.fact = .currencyRegister { currency := d } →
      (opp.PreProcess env ctx op get).2.2 = none := by
    intro nop d hop hfact
    subst hop
    simp only [CurrencyRegisterProcessor.PreProcess, Operation.Fact, hfact]
    repeat' split
    all_goals rfl
  refine ⟨?_, ?_, by decide⟩
  · constructor
    · rintro h ⟨nop, d, hop, hfact⟩
      exact h (key nop d hop hfact)
    · intro h
      cases op with
      | currencyRegister nop =>
        cases hf : nop.fact with
        | currencyRegister f =>
          exact absurd ⟨nop, f.currency, rfl, hf⟩ h
        | genesisCurrencies f =>
          simp [CurrencyRegisterProcessor.PreProcess, Operation.Fact, hf]
        | other tag =>
          simp [CurrencyRegisterProcessor.PreProcess, Operation.Fact, hf]
      | genesisCurrencies g => simp [CurrencyRegisterProcessor.PreProcess]
      | other tag f => simp [CurrencyRegisterProcessor.PreProcess]
  · intro nop d hop hfact
    refine ⟨key nop d hop hfact, ?_⟩
    subst hop
    simp only [CurrencyRegisterProcessor.PreProcess, Operation.Fact, hfact,
      ← checkNotExistsState_eq_none_iff, ← checkExistsState_eq_none_iff]
    cases env.CheckFactSignsBySuffrage opp.suffrage opp.threshold nop.NodeSigns <;>
    cases checkNotExistsState (env.StateKeyCurrencyDesign d.amount.Currency) get <;>
    cases checkExistsState (env.StateKeyAccount d.genesisAccount) get <;>
    cases checkNotExistsState (env.StateKeyContractAccount d.genesisAccount) get <;>
    cases checkNotExistsState
      (env.StateKeyBalance d.genesisAccount d.amount.Currency) get <;>
    cases hr : d.Policy.Feeer.Receiver <;> simp
    all_goals
      rename_i r
      cases checkExistsState (env.StateKeyAccount r) get <;>
      cases checkNotExistsState (env.StateKeyContractAccount r) get <;> simp
/-- C5: a `CurrencyRegister` operation whose fee policy names a receiver `r`
whose contract-account key is present is never accepted by `PreProcess`; and
when the signatures suffice, the design is absent, the genesis account is
present and not a contract account and the receiver account is present, the
rejection reason is "contract account cannot be fee receiver". -/
theorem register_PreProcess_contract_receiver (env : Env)
    (opp : CurrencyRegisterProcessor) (ctx : Context) (nop : CurrencyRegister)
    (fact : CurrencyRegisterFact) (r : Address) (get : GetStateFunc)
    (hfact : nop.fact = .currencyRegister fact)
    (hr : fact.currency.Policy.Feeer.Receiver = some r)
    (hcontract : present get (env.StateKeyContractAccount r)) :
    (opp.PreProcess env ctx (.currencyRegister nop) get).2 ≠ (none, none) ∧
    (env.CheckFactSignsBySuffrage opp.suffrage opp.threshold nop.NodeSigns = none →
      absent get (env.StateKeyCurrencyDesign fact.currency.amount.Currency) →
      present get (env.StateKeyAccount fact.currency.genesisAccount) →
      absent get (env.StateKeyContractAccount fact.currency.genesisAccount) →
      present get (env.StateKeyAccount r) →
      opp.PreProcess env ctx (.currencyRegister nop) get =
        (ctx, some (.reason "contract account cannot be fee receiver, %q: %w" [r]
          (.conflictingState (env.StateKeyContractAccount r))), none)) := by
  have hc := checkNotExistsState_of_present _ _ hcontract
  constructor
  · simp only [CurrencyRegisterProcessor.PreProcess, Operation.Fact, hfact, hr, hc]
    cases env.CheckFactSignsBySuffrage opp.suffrage opp.threshold nop.NodeSigns <;>
    cases checkNotExistsState (env.StateKeyCurrencyDesign fact.currency.amount.Currency) get <;>
    cases checkExistsState (env.StateKeyAccount fact.currency.genesisAccount) get <;>
    cases checkNotExistsState (env.StateKeyContractAccount fact.currency.genesisAccount) get <;>
    cases checkExistsState (env.StateKeyAccount r) get <;> simp
  · intro h1 h2 h3 h4 h5
    rw [← checkNotExistsState_eq_none_iff] at h2 h4
    rw [← checkExistsState_eq_none_iff] at h3 h5
    simp only [CurrencyRegisterProcessor.PreProcess, Operation.Fact, hfact, hr, hc, h1, h2, h3,
      h4, h5]

/-- C4: when `PreProcess` accepts a `CurrencyRegister` operation in a state and
`Process` succeeds there with deltas `D`, then in any state that has every key
of `D` present and is otherwise the same, `PreProcess` rejects the same
operation with the conflicting-state reason "currency design already exists". -/
theorem register_no_double_registration (env : Env) (opp : CurrencyRegisterProcessor)
    (ctx : Context) (nop : CurrencyRegister) (get get2 : GetStateFunc)
    (D : List StateMergeValue)
    (hpre : (opp.PreProcess env ctx (.currencyRegister nop) get).2 = (none, none))
    (hproc : opp.Process env ctx (.currencyRegister nop) get = (D, none, none))
    (hkeys : ∀ d ∈ D, present get2 d.Key)
    (_hsame : ∀ k, (∀ d ∈ D, d.Key ≠ k) → get2 k = get k) :
    ∃ fact, nop.fact = .currencyRegister fact ∧
      opp.PreProcess env ctx (.currencyRegister nop) get2 =
        (ctx, some (.reason "currency design already exists, %q: %w"
          [fact.currency.amount.Currency]
          (.conflictingState (env.StateKeyCurrencyDesign fact.currency.amount.Currency))),
          none) := by
  cases hf : nop.fact with
  | genesisCurrencies f =>
    simp [CurrencyRegisterProcessor.PreProcess, Operation.Fact, hf] at hpre
  | other tag =>
    simp [CurrencyRegisterProcessor.PreProcess, Operation.Fact, hf] at hpre
  | currencyRegister fact =>
    refine ⟨fact, rfl, ?_⟩
    have hsig : env.CheckFactSignsBySuffrage opp.suffrage opp.threshold nop.NodeSigns = none := by
      cases hs : env.CheckFactSignsBySuffrage opp.suffrage opp.threshold nop.NodeSigns with
      | none => rfl
      | some e =>
        simp [CurrencyRegisterProcessor.PreProcess, Operation.Fact, hf, hs] at hpre
    have hmem : NewCurrencyDesignStateMergeValue
        (env.StateKeyCurrencyDesign fact.currency.amount.Currency)
        (NewCurrencyDesignStateValue fact.currency) ∈ D := by
      simp only [CurrencyRegisterProcessor.Process, Operation.Fact, hf] at hproc
      split at hproc
      · simp at hproc
      · split at hproc
        · simp only [Prod.mk.injEq, and_true] at hproc
          rw [← hproc]
          simp
        · simp at hproc
    have hd := checkNotExistsState_of_present _ _ (hkeys _ hmem)
    simp only [StateMergeValue.Key] at hd
    simp only [CurrencyRegisterProcessor.PreProcess, Operation.Fact, hf, hsig, hd]
/-! ## Currency-register processor: worked examples for `PreProcess` -/

theorem stateOf_err (keys : List String) (k : String) : (stateOf keys k).err = none := by
  unfold stateOf; split <;> rfl

/-- C2, worked: with the genesis account "A" in the state and nothing else,
the "USD" registration is accepted. -/
theorem register_PreProcess_accepts_iff_witness :
    (demoProcessor.PreProcess demoEnv 0 (.currencyRegister usdRegisterOp)
      (stateOf ["A:account"])).2 = (none, none) :=
  (register_PreProcess_accepts_iff demoEnv demoProcessor 0 usdRegisterOp
    { currency := usdDesign } (stateOf ["A:account"]) rfl (stateOf_err _)).1.2
    ⟨by decide, by decide, by decide, by decide, fun r h => (by cases h), by decide⟩

/-- C3, worked: with the design of "USD" already there and the genesis account
missing, the earlier of the two failing checks gives the reason. -/
theorem register_PreProcess_first_failing_check_witness :
    ∃ e, demoProcessor.PreProcess demoEnv 0 usdRegister (stateOf ["currencydesign:USD"]) =
      (0, some (.reason "currency design already exists, %q: %w" ["USD"] e), none) :=
  ((register_PreProcess_first_failing_check demoEnv demoProcessor 0 usdRegister
    (stateOf ["currencydesign:USD"])).2.1 usdRegisterOp usdDesign rfl rfl).2.2
    (by decide) |>.1 (by decide)

/-- C5, worked: the receiver "R" exists and is a contract account, everything
else is in order, and the registration is rejected for that reason. -/
theorem register_PreProcess_contract_receiver_witness :
    demoProcessor.PreProcess demoEnv 0 (.currencyRegister usdFeeRegisterOp)
        (stateOf ["A:account", "R:account", "R:contractaccount"]) =
      (0, some (.reason "contract account cannot be fee receiver, %q: %w" ["R"]
        (.conflictingState "R:contractaccount")), none) :=
  (register_PreProcess_contract_receiver demoEnv demoProcessor 0 usdFeeRegisterOp _ "R"
    (stateOf ["A:account", "R:account", "R:contractaccount"]) rfl rfl (by decide)).2
    (by decide) (by decide) (by decide) (by decide) (by decide)

/-- C4, worked: the "USD" registration is accepted and processed on the state
holding "A"; once its four keys are in the state as well, it is rejected. -/
theorem register_no_double_registration_witness :
    ∃ fact, usdRegisterOp.fact = .currencyRegister fact ∧
      demoProcessor.PreProcess demoEnv 0 (.currencyRegister usdRegisterOp)
        (stateOf ["A:account", "A-USD:balance", "currencydesign:USD", "USD-Xmca:account",
          "USD-Xmca-USD:balance"]) =
        (0, some (.reason "currency design already exists, %q: %w"
          [fact.currency.amount.Currency]
          (.conflictingState (demoEnv.StateKeyCurrencyDesign fact.currency.amount.Currency))),
          none) :=
  register_no_double_registration demoEnv demoProcessor 0 usdRegisterOp
    (stateOf ["A:account"])
    (stateOf ["A:account", "A-USD:balance", "currencydesign:USD", "USD-Xmca:account",
      "USD-Xmca-USD:balance"])
    [NewBalanceStateMergeValue "A-USD:balance" (.balance { big := 1000, cid := "USD" }),
     NewCurrencyDesignStateMergeValue "currencydesign:USD" (.currencyDesign usdDesign),
     NewAccountStateMergeValue "USD-Xmca:account"
       (.account { address := "USD-Xmca", keys := none }),
     NewBalanceStateMergeValue "USD-Xmca-USD:balance" (.balance { big := 0, cid := "USD" })]
    (by decide) (by decide) (by decide)
    (by
      intro k hk
      simp only [List.mem_cons, List.mem_singleton, forall_eq_or_imp, forall_eq,
        StateMergeValue.Key, List.not_mem_nil, false_implies, implies_true, and_true] at hk
      obtain ⟨h1, h2, h3, h4⟩ := hk
      simp [stateOf, Ne.symm h1, Ne.symm h2, Ne.symm h3, Ne.symm h4])

/-! ## Genesis-currencies processor: the two loops -/

theorem mapsReady_set (env : Env) (F : Address) (gas sts : MergeMap) (c0 cid : CurrencyID)
    (v : StateValue) (h : cid = c0 ∨ mapsReady env F gas sts cid) :
    mapsReady env F
      (gas.set c0 (NewBalanceStateMergeValue (env.StateKeyBalance F c0)
        (NewBalanceStateValue (NewZeroAmount c0))))
      (sts.set c0 (NewCurrencyDesignStateMergeValue (env.StateKeyCurrencyDesign c0) v)) cid := by
  unfold mapsReady MergeMap.set
  by_cases hc : c0 = cid
  · subst hc
    simp [MergeMap.get]
  · rcases h with h | h
    · exact absurd h.symm hc
    · simpa [MergeMap.get, hc] using h

theorem genesisCheckLoop_ok (env : Env) (F : Address) (get : GetStateFunc) :
    ∀ (es cs : List CurrencyDesign) (gas sts : MergeMap),
      (∀ c ∈ es, absent get (env.StateKeyCurrencyDesign c.amount.Currency) ∧
        absent get (env.StateKeyBalance F c.amount.Currency)) →
      ∃ gas2 sts2,
        genesisCheckLoop env F get es (cs, gas, sts) =
          .ok (cs ++ es.map (fun c => { c with genesisAccount := F }), gas2, sts2) ∧
        ∀ cid, (cid ∈ es.map (fun c => c.amount.Currency) ∨ mapsReady env F gas sts cid) →
          mapsReady env F gas2 sts2 cid := by
  intro es
  induction es with
  | nil =>
    intro cs gas sts _
    exact ⟨gas, sts, by simp [genesisCheckLoop], fun cid h => by simpa using h⟩
  | cons c0 rest ih =>
    intro cs gas sts h
    have h0 := h c0 (List.mem_cons_self _ _)
    have hrest : ∀ c ∈ rest, absent get (env.StateKeyCurrencyDesign c.amount.Currency) ∧
        absent get (env.StateKeyBalance F c.amount.Currency) :=
      fun c hc => h c (List.mem_cons_of_mem _ hc)
    obtain ⟨gas2, sts2, hloop, hready⟩ := ih (cs ++ [{ c0 with genesisAccount := F }])
      (gas.set c0.amount.Currency (NewBalanceStateMergeValue
        (env.StateKeyBalance F c0.amount.Currency)
        (NewBalanceStateValue (NewZeroAmount c0.amount.Currency))))
      (sts.set c0.amount.Currency (NewCurrencyDesignStateMergeValue
        (env.StateKeyCurrencyDesign c0.amount.Currency)
        (NewCurrencyDesignStateValue { c0 with genesisAccount := F }))) hrest
    refine ⟨gas2, sts2, ?_, ?_⟩
    · simp only [genesisCheckLoop, notExistsState_of_absent _ _ _ h0.1,
        notExistsState_of_absent _ _ _ h0.2, State.Key, hloop]
      simp
    · intro cid hcid
      apply hready
      rcases hcid with hcid | hcid
      · rw [List.map_cons, List.mem_cons] at hcid
        rcases hcid with hcid | hcid
        · exact Or.inr (mapsReady_set env F gas sts _ cid _ (Or.inl hcid))
        · exact Or.inl hcid
      · exact Or.inr (mapsReady_set env F gas sts _ cid _ (Or.inr hcid))

theorem genesisCheckLoop_error (env : Env) (F : Address) (get : GetStateFunc) :
    ∀ (es cs : List CurrencyDesign) (gas sts : MergeMap),
      (∃ c ∈ es, ¬ (absent get (env.StateKeyCurrencyDesign c.amount.Currency) ∧
        absent get (env.StateKeyBalance F c.amount.Currency))) →
      ∃ format args cause,
        genesisCheckLoop env F get es (cs, gas, sts) = .error (.reason format args cause) := by
  intro es
  induction es with
  | nil => intro cs gas sts h; simp at h
  | cons c0 rest ih =>
    intro cs gas sts h
    by_cases h1 : absent get (env.StateKeyCurrencyDesign c0.amount.Currency)
    · by_cases h2 : absent get (env.StateKeyBalance F c0.amount.Currency)
      · have hrest : ∃ c ∈ rest, ¬ (absent get (env.StateKeyCurrencyDesign c.amount.Currency) ∧
            absent get (env.StateKeyBalance F c.amount.Currency)) := by
          obtain ⟨c, hc, hn⟩ := h
          rcases List.mem_cons.1 hc with rfl | hc
          · exact absurd ⟨h1, h2⟩ hn
          · exact ⟨c, hc, hn⟩
        simp only [genesisCheckLoop, notExistsState_of_absent _ _ _ h1,
          notExistsState_of_absent _ _ _ h2]
        exact ih _ _ _ hrest
      · obtain ⟨e, he⟩ := notExistsState_error_of_not_absent _ "key of genesis balance" get h2
        simp only [genesisCheckLoop, notExistsState_of_absent _ _ _ h1, he]
        exact ⟨_, _, _, rfl⟩
    · obtain ⟨e, he⟩ := notExistsState_error_of_not_absent _ "currency" get h1
      simp only [genesisCheckLoop, he]
      exact ⟨_, _, _, rfl⟩

theorem createZeroAccount_ok_poolDeltas (env : Env) (cid : CurrencyID) (get : GetStateFunc)
    (h : ∃ z, env.ZeroAccount cid = .ok z ∧ absent get (env.StateKeyAccount z.Address) ∧
      absent get (env.StateKeyBalance z.Address cid)) :
    createZeroAccount env cid get = .ok (poolDeltas env cid) := by
  obtain ⟨z, hz, ha, hb⟩ := h
  rw [createZeroAccount_ok_iff]
  exact ⟨z, hz, ha, hb, by simp [poolDeltas, hz]⟩

theorem createZeroAccount_error_of_not (env : Env) (cid : CurrencyID) (get : GetStateFunc)
    (h : ¬ ∃ z, env.ZeroAccount cid = .ok z ∧ absent get (env.StateKeyAccount z.Address) ∧
      absent get (env.StateKeyBalance z.Address cid)) :
    ∃ e, createZeroAccount env cid get = .error e := by
  cases hc : createZeroAccount env cid get with
  | error e => exact ⟨e, rfl⟩
  | ok l =>
    obtain ⟨z, hz, ha, hb, -⟩ := (createZeroAccount_ok_iff env cid get l).1 hc
    exact absurd ⟨z, hz, ha, hb⟩ h

theorem genesisEmitLoop_ok (env : Env) (F : Address) (get : GetStateFunc) (gas sts : MergeMap) :
    ∀ (cs : List CurrencyDesign) (smvs : List StateMergeValue),
      (∀ c ∈ cs, mapsReady env F gas sts c.amount.Currency) →
      (∀ c ∈ cs, c.genesisAccount = F) →
      (∀ c ∈ cs, ∃ z, env.ZeroAccount c.amount.Currency = .ok z ∧
        absent get (env.StateKeyAccount z.Address) ∧
        absent get (env.StateKeyBalance z.Address c.amount.Currency)) →
      genesisEmitLoop env get gas sts cs smvs =
        (smvs ++ cs.flatMap (genesisEntryDeltas env F), none, none) := by
  intro cs
  induction cs with
  | nil => intro smvs _ _ _; simp [genesisEmitLoop]
  | cons c rest ih =>
    intro smvs hready hgen hpool
    obtain ⟨hg, v, hs⟩ := hready c (List.mem_cons_self _ _)
    have hz := createZeroAccount_ok_poolDeltas env _ get (hpool c (List.mem_cons_self _ _))
    have hF : ({ c with genesisAccount := F } : CurrencyDesign) = c := by
      have := hgen c (List.mem_cons_self _ _)
      cases c; simp_all
    have hamount : ({ big := c.amount.big, cid := c.amount.Currency } : Amount) = c.amount := by
      cases c.amount; rfl
    simp only [genesisEmitLoop, hg, hs, StateMergeValue.Value, NewBalanceStateValue,
      StateMergeValue.Key, hz, Amount.WithBig, Amount.Big, NewZeroAmount, zero_add, hamount]
    rw [ih _ (fun c hc => hready c (List.mem_cons_of_mem _ hc))
      (fun c hc => hgen c (List.mem_cons_of_mem _ hc))
      (fun c hc => hpool c (List.mem_cons_of_mem _ hc))]
    simp [genesisEntryDeltas, hF, NewBalanceStateValue, List.append_assoc]

theorem genesisEmitLoop_rejects (env : Env) (F : Address) (get : GetStateFunc)
    (gas sts : MergeMap) :
    ∀ (cs : List CurrencyDesign) (smvs : List StateMergeValue),
      (∀ c ∈ cs, mapsReady env F gas sts c.amount.Currency) →
      (∃ c ∈ cs, ¬ ∃ z, env.ZeroAccount c.amount.Currency = .ok z ∧
        absent get (env.StateKeyAccount z.Address) ∧
        absent get (env.StateKeyBalance z.Address c.amount.Currency)) →
      ∃ c ∈ cs, ∃ e, genesisEmitLoop env get gas sts cs smvs =
        ([], some (.reason "failed to create zero account, %q: %w" [c.amount.Currency] e),
          none) := by
  intro cs
  induction cs with
  | nil => intro smvs _ h; simp at h
  | cons c rest ih =>
    intro smvs hready hbad
    obtain ⟨hg, v, hs⟩ := hready c (List.mem_cons_self _ _)
    by_cases hc : ∃ z, env.ZeroAccount c.amount.Currency = .ok z ∧
        absent get (env.StateKeyAccount z.Address) ∧
        absent get (env.StateKeyBalance z.Address c.amount.Currency)
    · have hz := createZeroAccount_ok_poolDeltas env _ get hc
      have hrest : ∃ c ∈ rest, ¬ ∃ z, env.ZeroAccount c.amount.Currency = .ok z ∧
          absent get (env.StateKeyAccount z.Address) ∧
          absent get (env.StateKeyBalance z.Address c.amount.Currency) := by
        obtain ⟨c2, hc2, hn⟩ := hbad
        rcases List.mem_cons.1 hc2 with rfl | hc2
        · exact absurd hc hn
        · exact ⟨c2, hc2, hn⟩
      simp only [genesisEmitLoop, hg, hs, StateMergeValue.Value, NewBalanceStateValue, hz]
      obtain ⟨c2, hc2, e, he⟩ := ih _ (fun c hc => hready c (List.mem_cons_of_mem _ hc)) hrest
      exact ⟨c2, List.mem_cons_of_mem _ hc2, e, he⟩
    · obtain ⟨e, he⟩ := createZeroAccount_error_of_not env _ get hc
      refine ⟨c, List.mem_cons_self _ _, e, ?_⟩
      simp only [genesisEmitLoop, hg, hs, StateMergeValue.Value, NewBalanceStateValue, he]

/-! ## Genesis-currencies processor: `Process` as a whole -/

theorem genesisEntryDeltas_rewritten (env : Env) (F : Address) (cs : List CurrencyDesign) :
    (cs.map (fun c => ({ c with genesisAccount := F } : CurrencyDesign))).flatMap
        (genesisEntryDeltas env F) =
      cs.flatMap (genesisEntryDeltas env F) := by
  rw [List.flatMap_map]
  rfl

theorem genesis_Process_past_checks (env : Env) (op : GenesisCurrencies) (ctx : Context)
    (get : GetStateFunc) (fact : GenesisCurrenciesFact) (F : Address) (ac : Account)
    (hfact : op.Fact = .genesisCurrencies fact)
    (hF : env.factAddress fact = .ok F)
    (hac : env.NewAccount F fact.keys = .ok ac)
    (hacc : absent get (env.StateKeyAccount F))
    (hentries : ∀ c ∈ fact.cs, absent get (env.StateKeyCurrencyDesign c.amount.Currency) ∧
      absent get (env.StateKeyBalance F c.amount.Currency)) :
    ∃ gas sts,
      (∀ c ∈ fact.cs.map (fun c => ({ c with genesisAccount := F } : CurrencyDesign)),
        mapsReady env F gas sts c.amount.Currency) ∧
      op.Process env ctx get =
        genesisEmitLoop env get gas sts
          (fact.cs.map (fun c => ({ c with genesisAccount := F } : CurrencyDesign)))
          [NewAccountStateMergeValue (env.StateKeyAccount F) (NewAccountStateValue ac)] := by
  obtain ⟨gas, sts, hloop, hready⟩ := genesisCheckLoop_ok env F get fact.cs [] [] [] hentries
  refine ⟨gas, sts, ?_, ?_⟩
  · intro c hc
    obtain ⟨c0, hc0, rfl⟩ := List.mem_map.1 hc
    exact hready _ (Or.inl (List.mem_map.2 ⟨c0, hc0, rfl⟩))
  · simp only [GenesisCurrencies.Process, hfact, hF, notExistsState_of_absent _ _ _ hacc, hloop,
      hac, State.Key, List.nil_append]

theorem genesis_Process_accepts (env : Env) (op : GenesisCurrencies) (ctx : Context)
    (get : GetStateFunc) (fact : GenesisCurrenciesFact) (F : Address) (ac : Account)
    (hfact : op.Fact = .genesisCurrencies fact)
    (hF : env.factAddress fact = .ok F)
    (hac : env.NewAccount F fact.keys = .ok ac)
    (hclear : genesisClear env F get fact.cs) :
    op.Process env ctx get = (genesisDeltas env F ac fact.cs, none, none) := by
  obtain ⟨hacc, hentries, hpools⟩ := hclear
  obtain ⟨gas, sts, hready, hproc⟩ :=
    genesis_Process_past_checks env op ctx get fact F ac hfact hF hac hacc hentries
  rw [hproc, genesisEmitLoop_ok env F get gas sts _ _ hready]
  · rw [genesisEntryDeltas_rewritten]
    rfl
  · intro c hc
    obtain ⟨c0, -, rfl⟩ := List.mem_map.1 hc
    rfl
  · intro c hc
    obtain ⟨c0, hc0, rfl⟩ := List.mem_map.1 hc
    exact hpools c0 hc0

theorem genesis_Process_accepted (env : Env) (op : GenesisCurrencies) (ctx : Context)
    (get : GetStateFunc) (D : List StateMergeValue)
    (h : op.Process env ctx get = (D, none, none)) :
    ∃ fact F ac, op.Fact = .genesisCurrencies fact ∧ env.factAddress fact = .ok F ∧
      env.NewAccount F fact.keys = .ok ac ∧ genesisClear env F get fact.cs ∧
      D = genesisDeltas env F ac fact.cs := by
  cases hfact : op.Fact with
  | currencyRegister f => simp [GenesisCurrencies.Process, hfact] at h
  | other tag => simp [GenesisCurrencies.Process, hfact] at h
  | genesisCurrencies fact =>
    cases hF : env.factAddress fact with
    | error e => simp [GenesisCurrencies.Process, hfact, hF] at h
    | ok F =>
      by_cases hacc : absent get (env.StateKeyAccount F)
      · by_cases hentries : ∀ c ∈ fact.cs,
            absent get (env.StateKeyCurrencyDesign c.amount.Currency) ∧
            absent get (env.StateKeyBalance F c.amount.Currency)
        · cases hac : env.NewAccount F fact.keys with
          | error e =>
            obtain ⟨gas, sts, hloop, -⟩ :=
              genesisCheckLoop_ok env F get fact.cs [] [] [] hentries
            simp [GenesisCurrencies.Process, hfact, hF, notExistsState_of_absent _ _ _ hacc,
              hloop, hac] at h
          | ok ac =>
            obtain ⟨gas, sts, hready, hproc⟩ :=
              genesis_Process_past_checks env op ctx get fact F ac hfact hF hac hacc hentries
            by_cases hpools : ∀ c ∈ fact.cs, ∃ z, env.ZeroAccount c.amount.Currency = .ok z ∧
                absent get (env.StateKeyAccount z.Address) ∧
                absent get (env.StateKeyBalance z.Address c.amount.Currency)
            · have := genesis_Process_accepts env op ctx get fact F ac hfact hF hac
                ⟨hacc, hentries, hpools⟩
              rw [this] at h
              exact ⟨fact, F, ac, rfl, hF, hac, ⟨hacc, hentries, hpools⟩,
                (Prod.mk.inj h).1.symm⟩
            · have hbad : ∃ c ∈ fact.cs.map
                  (fun c => ({ c with genesisAccount := F } : CurrencyDesign)),
                  ¬ ∃ z, env.ZeroAccount c.amount.Currency = .ok z ∧
                    absent get (env.StateKeyAccount z.Address) ∧
                    absent get (env.StateKeyBalance z.Address c.amount.Currency) := by
                simp only [not_forall] at hpools
                obtain ⟨c, hc, hn⟩ := hpools
                exact ⟨_, List.mem_map.2 ⟨c, hc, rfl⟩, hn⟩
              obtain ⟨c, -, e, he⟩ := genesisEmitLoop_rejects env F get gas sts _
                [NewAccountStateMergeValue (env.StateKeyAccount F) (NewAccountStateValue ac)]
                hready hbad
              rw [hproc, he] at h
              simp at h
        · simp only [not_forall] at hentries
          obtain ⟨c, hc, hn⟩ := hentries
          obtain ⟨f, a, e, he⟩ := genesisCheckLoop_error env F get fact.cs [] [] [] ⟨c, hc, hn⟩
          simp [GenesisCurrencies.Process, hfact, hF, notExistsState_of_absent _ _ _ hacc,
            he] at h
      · obtain ⟨e, he⟩ := notExistsState_error_of_not_absent _ "key of genesis account" get hacc
        simp [GenesisCurrencies.Process, hfact, hF, he] at h

/-! ## Genesis-currencies processor: what an accepted operation emits -/

theorem getElem?_flatMap_four {α β : Type} (f : α → List β) :
    ∀ (l : List α), (∀ a ∈ l, (f a).length = 4) →
      ∀ (i : Nat) (hi : i < l.length) (j : Nat), j < 4 →
        (l.flatMap f)[4 * i + j]? = (f l[i])[j]? := by
  intro l
  induction l with
  | nil => intro _ i hi; simp at hi
  | cons a rest ih =>
    intro hf i hi j hj
    have ha := hf a (List.mem_cons_self _ _)
    rw [List.flatMap_cons]
    cases i with
    | zero =>
      simp only [Nat.mul_zero, Nat.zero_add, List.getElem_cons_zero]
      exact List.getElem?_append_left (by omega)
    | succ i =>
      rw [List.getElem?_append_right (by omega), ha]
      have hi2 : i < rest.length := by simpa using hi
      have := ih (fun b hb => hf b (List.mem_cons_of_mem _ hb)) i hi2 j hj
      simp only [List.getElem_cons_succ]
      rw [← this]
      congr 1
      omega

theorem genesisEntryDeltas_of_pool (env : Env) (F : Address) (c : CurrencyDesign) (z : Account)
    (hz : env.ZeroAccount c.amount.Currency = .ok z) :
    genesisEntryDeltas env F c =
      [NewBalanceStateMergeValue (env.StateKeyBalance F c.amount.Currency)
         (NewBalanceStateValue c.amount),
       NewCurrencyDesignStateMergeValue (env.StateKeyCurrencyDesign c.amount.Currency)
         (NewCurrencyDesignStateValue { c with genesisAccount := F }),
       NewAccountStateMergeValue (env.StateKeyAccount z.Address) (NewAccountStateValue z),
       NewBalanceStateMergeValue (env.StateKeyBalance z.Address c.amount.Currency)
         (NewBalanceStateValue (NewZeroAmount c.amount.Currency))] := by
  simp [genesisEntryDeltas, poolDeltas, hz, zeroAccountDeltas]

/-- C6: an accepted `GenesisCurrencies` operation with `n` entries and founding
address `F` yields exactly `1 + 4n` deltas: at position 0 the account-create
delta at `StateKeyAccount(F)` for the account built from the fact's keys, and
for entry `i` of the fact, at positions `1+4i .. 4+4i`, the balance delta at
`StateKeyBalance(F, c_i)`, the design delta at `StateKeyCurrencyDesign(c_i)`,
the pool-account create and the pool zero-balance create of `c_i`. The list is
fixed by the fact's order alone. -/
theorem genesis_Process_fact_order (env : Env) (op : GenesisCurrencies) (ctx : Context)
    (get : GetStateFunc) (D : List StateMergeValue)
    (h : op.Process env ctx get = (D, none, none)) :
    ∃ fact F ac, op.Fact = .genesisCurrencies fact ∧ env.factAddress fact = .ok F ∧
      env.NewAccount F fact.keys = .ok ac ∧
      D.length = 1 + 4 * fact.cs.length ∧
      D[0]? = some (NewAccountStateMergeValue (env.StateKeyAccount F)
        (NewAccountStateValue ac)) ∧
      ∀ (i : Nat) (hi : i < fact.cs.length),
        D[1 + 4 * i]? = some (NewBalanceStateMergeValue
          (env.StateKeyBalance F fact.cs[i].amount.Currency)
          (NewBalanceStateValue fact.cs[i].amount)) ∧
        D[2 + 4 * i]? = some (NewCurrencyDesignStateMergeValue
          (env.StateKeyCurrencyDesign fact.cs[i].amount.Currency)
          (NewCurrencyDesignStateValue { fact.cs[i] with genesisAccount := F })) ∧
        ∃ z, env.ZeroAccount fact.cs[i].amount.Currency = .ok z ∧
          D[3 + 4 * i]? = some (NewAccountStateMergeValue (env.StateKeyAccount z.Address)
            (NewAccountStateValue z)) ∧
          D[4 + 4 * i]? = some (NewBalanceStateMergeValue
            (env.StateKeyBalance z.Address fact.cs[i].amount.Currency)
            (NewBalanceStateValue (NewZeroAmount fact.cs[i].amount.Currency))) := by
  obtain ⟨fact, F, ac, hfact, hF, hac, ⟨-, -, hpools⟩, rfl⟩ :=
    genesis_Process_accepted env op ctx get D h
  have hlen : ∀ c ∈ fact.cs, (genesisEntryDeltas env F c).length = 4 := by
    intro c hc
    obtain ⟨z, hz, -, -⟩ := hpools c hc
    rw [genesisEntryDeltas_of_pool env F c z hz]
    rfl
  refine ⟨fact, F, ac, hfact, hF, hac, ?_, by simp [genesisDeltas], ?_⟩
  · simp only [genesisDeltas, List.length_cons, List.length_flatMap]
    have : List.map (List.length ∘ genesisEntryDeltas env F) fact.cs =
        List.map (fun _ => 4) fact.cs :=
      List.map_congr_left (fun c hc => hlen c hc)
    rw [this]
    simp
    omega
  · intro i hi
    obtain ⟨z, hz, -, -⟩ := hpools fact.cs[i] (List.getElem_mem _)
    have hget : ∀ j, j < 4 → (genesisDeltas env F ac fact.cs)[(j + 1) + 4 * i]? =
        (genesisEntryDeltas env F fact.cs[i])[j]? := by
      intro j hj
      have := getElem?_flatMap_four (genesisEntryDeltas env F) fact.cs hlen i hi j hj
      rw [← this]
      have e : j + 1 + 4 * i = (4 * i + j) + 1 := by omega
      rw [e]
      simp [genesisDeltas]
    rw [genesisEntryDeltas_of_pool env F _ z hz] at hget
    refine ⟨by simpa using hget 0 (by omega), by simpa using hget 1 (by omega), z, hz,
      by simpa using hget 2 (by omega), by simpa using hget 3 (by omega)⟩

theorem scenarioGenesis_Process :
    scenarioGenesis.Process demoEnv 0 emptyState = (scenarioDeltas, none, none) := by
  decide

/-- C6, worked: the specification's genesis scenario on the empty state is
accepted with `scenarioDeltas`, thirteen deltas laid out as stated. -/
theorem genesis_Process_fact_order_witness :
    ∃ fact F ac, scenarioGenesis.Fact = .genesisCurrencies fact ∧
      demoEnv.factAddress fact = .ok F ∧ demoEnv.NewAccount F fact.keys = .ok ac ∧
      scenarioDeltas.length = 1 + 4 * fact.cs.length ∧
      scenarioDeltas[0]? = some (NewAccountStateMergeValue (demoEnv.StateKeyAccount F)
        (NewAccountStateValue ac)) ∧
      ∀ (i : Nat) (hi : i < fact.cs.length),
        scenarioDeltas[1 + 4 * i]? = some (NewBalanceStateMergeValue
          (demoEnv.StateKeyBalance F fact.cs[i].amount.Currency)
          (NewBalanceStateValue fact.cs[i].amount)) ∧
        scenarioDeltas[2 + 4 * i]? = some (NewCurrencyDesignStateMergeValue
          (demoEnv.StateKeyCurrencyDesign fact.cs[i].amount.Currency)
          (NewCurrencyDesignStateValue { fact.cs[i] with genesisAccount := F })) ∧
        ∃ z, demoEnv.ZeroAccount fact.cs[i].amount.Currency = .ok z ∧
          scenarioDeltas[3 + 4 * i]? = some (NewAccountStateMergeValue
            (demoEnv.StateKeyAccount z.Address) (NewAccountStateValue z)) ∧
          scenarioDeltas[4 + 4 * i]? = some (NewBalanceStateMergeValue
            (demoEnv.StateKeyBalance z.Address fact.cs[i].amount.Currency)
            (NewBalanceStateValue (NewZeroAmount fact.cs[i].amount.Currency))) :=
  genesis_Process_fact_order demoEnv scenarioGenesis 0 emptyState scenarioDeltas
    scenarioGenesis_Process

/-! ## Genesis-currencies processor: balances -/

theorem balanceTotal_append (k : String) (l1 l2 : List StateMergeValue) :
    balanceTotal k (l1 ++ l2) = balanceTotal k l1 + balanceTotal k l2 := by
  induction l1 with
  | nil => simp [balanceTotal]
  | cons d rest ih =>
    cases d with
    | NewBalanceStateMergeValue k2 v =>
      cases v <;> simp [balanceTotal, ih, add_assoc]
    | NewAccountStateMergeValue k2 v => simp [balanceTotal, ih]
    | NewCurrencyDesignStateMergeValue k2 v => simp [balanceTotal, ih]

theorem balanceTotal_poolDeltas (env : Env) (k : String) (cid : CurrencyID) :
    balanceTotal k (poolDeltas env cid) = 0 := by
  unfold poolDeltas
  cases env.ZeroAccount cid <;>
    simp [balanceTotal, zeroAccountDeltas, NewBalanceStateValue, NewZeroAmount]

theorem balanceTotal_entry (env : Env) (F : Address) (k : String) (c : CurrencyDesign) :
    balanceTotal k (genesisEntryDeltas env F c) =
      if env.StateKeyBalance F c.amount.Currency = k then c.amount.Big else 0 := by
  unfold genesisEntryDeltas
  rw [balanceTotal_append, balanceTotal_poolDeltas]
  simp [balanceTotal, NewBalanceStateValue, Amount.Big]

/-- C7: for an accepted `GenesisCurrencies` operation with founding address
`F` and a CurrencyID `c` whose founding balance key is shared with no other
listed CurrencyID, the balance that results at `StateKeyBalance(F, c)` from the
emitted deltas, merged additively starting from no balance, is the arithmetic
sum of the amounts of all entries that list `c`. -/
theorem genesis_balance_is_sum (env : Env) (op : GenesisCurrencies) (ctx : Context)
    (get : GetStateFunc) (D : List StateMergeValue)
    (h : op.Process env ctx get = (D, none, none)) :
    ∃ fact F, op.Fact = .genesisCurrencies fact ∧ env.factAddress fact = .ok F ∧
      ∀ c : CurrencyID,
        (∀ e ∈ fact.cs, env.StateKeyBalance F e.amount.Currency = env.StateKeyBalance F c →
          e.amount.Currency = c) →
        balanceTotal (env.StateKeyBalance F c) D =
          ((fact.cs.filter (fun e => e.amount.Currency = c)).map (fun e => e.amount.Big)).sum := by
  obtain ⟨fact, F, ac, hfact, hF, -, -, rfl⟩ := genesis_Process_accepted env op ctx get D h
  refine ⟨fact, F, hfact, hF, ?_⟩
  intro c hinj
  have hflat : ∀ cs : List CurrencyDesign,
      (∀ e ∈ cs, env.StateKeyBalance F e.amount.Currency = env.StateKeyBalance F c →
        e.amount.Currency = c) →
      balanceTotal (env.StateKeyBalance F c) (cs.flatMap (genesisEntryDeltas env F)) =
        ((cs.filter (fun e => e.amount.Currency = c)).map (fun e => e.amount.Big)).sum := by
    intro cs
    induction cs with
    | nil => intro _; simp [balanceTotal]
    | cons e rest ih =>
      intro hcs
      rw [List.flatMap_cons, balanceTotal_append, balanceTotal_entry,
        ih (fun e2 he2 => hcs e2 (List.mem_cons_of_mem _ he2))]
      by_cases hk : env.StateKeyBalance F e.amount.Currency = env.StateKeyBalance F c
      · have hc := hcs e (List.mem_cons_self _ _) hk
        simp [hk, hc, List.filter_cons]
      · have hc : e.amount.Currency ≠ c := fun hc => hk (by rw [hc])
        simp [hk, hc, List.filter_cons]
  simpa [genesisDeltas, balanceTotal] using hflat fact.cs hinj

/-- C7, worked: the entries (USD, 1000), (USD, 500), (EUR, 200) give the
founding address the balance 1500 in USD. -/
theorem genesis_balance_is_sum_witness :
    ∃ fact F, scenarioGenesis.Fact = .genesisCurrencies fact ∧
      demoEnv.factAddress fact = .ok F ∧
      ∀ c : CurrencyID,
        (∀ e ∈ fact.cs, demoEnv.StateKeyBalance F e.amount.Currency =
            demoEnv.StateKeyBalance F c → e.amount.Currency = c) →
        balanceTotal (demoEnv.StateKeyBalance F c) scenarioDeltas =
          ((fact.cs.filter (fun e => e.amount.Currency = c)).map
            (fun e => e.amount.Big)).sum :=
  genesis_balance_is_sum demoEnv scenarioGenesis 0 emptyState scenarioDeltas
    scenarioGenesis_Process

theorem scenario_balances :
    balanceTotal "F-USD:balance" scenarioDeltas = 1500 ∧
    balanceTotal "F-EUR:balance" scenarioDeltas = 200 := by
  decide

/-! ## Genesis-currencies processor: all or nothing -/

theorem not_absent_of_present (get : GetStateFunc) (k : String) (h : present get k) :
    ¬ absent get k := by
  intro ha
  have := h.2
  rw [ha.2] at this
  cases this

/-- C8: when, for at least one entry of the fact, the design key or the
(founding address, CurrencyID) balance key is already present, `Process`
returns a rejection reason and the nil delta list, so neither the founding
account delta nor a delta of any entry is produced. -/
theorem genesis_all_or_nothing (env : Env) (op : GenesisCurrencies) (ctx : Context)
    (get : GetStateFunc) (fact : GenesisCurrenciesFact) (F : Address) (c : CurrencyDesign)
    (hfact : op.Fact = .genesisCurrencies fact)
    (hF : env.factAddress fact = .ok F)
    (hc : c ∈ fact.cs)
    (hpresent : present get (env.StateKeyCurrencyDesign c.amount.Currency) ∨
      present get (env.StateKeyBalance F c.amount.Currency)) :
    ∃ format args cause,
      op.Process env ctx get = ([], some (.reason format args cause), none) := by
  by_cases hacc : absent get (env.StateKeyAccount F)
  · have hbad : ∃ c ∈ fact.cs, ¬ (absent get (env.StateKeyCurrencyDesign c.amount.Currency) ∧
        absent get (env.StateKeyBalance F c.amount.Currency)) := by
      refine ⟨c, hc, fun hboth => ?_⟩
      rcases hpresent with hp | hp
      · exact not_absent_of_present _ _ hp hboth.1
      · exact not_absent_of_present _ _ hp hboth.2
    obtain ⟨f, a, e, he⟩ := genesisCheckLoop_error env F get fact.cs [] [] [] hbad
    exact ⟨f, a, e, by
      simp only [GenesisCurrencies.Process, hfact, hF, notExistsState_of_absent _ _ _ hacc, he]⟩
  · obtain ⟨e, he⟩ := notExistsState_error_of_not_absent _ "key of genesis account" get hacc
    refine ⟨"genesis account already exists, %q: %w", [F], e, ?_⟩
    simp only [GenesisCurrencies.Process, hfact, hF, he]

/-- C8, worked: the design of "EUR", the last entry of the scenario, is
already in the state, and nothing at all is emitted. -/
theorem genesis_all_or_nothing_witness :
    ∃ format args cause,
      scenarioGenesis.Process demoEnv 0 (stateOf ["currencydesign:EUR"]) =
        ([], some (.reason format args cause), none) :=
  genesis_all_or_nothing demoEnv scenarioGenesis 0 (stateOf ["currencydesign:EUR"])
    scenarioFact "F" (mkDesign "EUR" 200 "X") rfl rfl (by decide) (Or.inl (by decide))

/-! ## Keys of the create deltas -/

theorem accountKeys_append (l1 l2 : List StateMergeValue) :
    accountKeys (l1 ++ l2) = accountKeys l1 ++ accountKeys l2 := by
  induction l1 with
  | nil => simp [accountKeys]
  | cons d rest ih => cases d <;> simp [accountKeys, ih]

theorem designKeys_append (l1 l2 : List StateMergeValue) :
    designKeys (l1 ++ l2) = designKeys l1 ++ designKeys l2 := by
  induction l1 with
  | nil => simp [designKeys]
  | cons d rest ih => cases d <;> simp [designKeys, ih]

theorem designKeys_entries (env : Env) (F : Address) (cs : List CurrencyDesign) :
    designKeys (cs.flatMap (genesisEntryDeltas env F)) =
      cs.map (fun c => env.StateKeyCurrencyDesign c.amount.Currency) := by
  induction cs with
  | nil => simp [designKeys]
  | cons c rest ih =>
    rw [List.flatMap_cons, designKeys_append, ih]
    unfold genesisEntryDeltas poolDeltas
    cases env.ZeroAccount c.amount.Currency <;> simp [designKeys, zeroAccountDeltas]

theorem accountKeys_entries (env : Env) (F : Address) (cs : List CurrencyDesign) :
    accountKeys (cs.flatMap (genesisEntryDeltas env F)) =
      (cs.map (fun c => c.amount.Currency)).filterMap (poolAccountKey env) := by
  induction cs with
  | nil => simp [accountKeys]
  | cons c rest ih =>
    rw [List.flatMap_cons, accountKeys_append, ih, List.map_cons, List.filterMap_cons]
    have he : accountKeys (genesisEntryDeltas env F c) =
        (poolAccountKey env c.amount.Currency).toList := by
      unfold genesisEntryDeltas poolDeltas poolAccountKey
      cases env.ZeroAccount c.amount.Currency <;> simp [accountKeys, zeroAccountDeltas]
    rw [he]
    cases poolAccountKey env c.amount.Currency <;> simp

theorem nodup_filterMap_on {α β : Type} (g : α → Option β) :
    ∀ l : List α, l.Nodup →
      (∀ a1 ∈ l, ∀ a2 ∈ l, ∀ b, g a1 = some b → g a2 = some b → a1 = a2) →
      (l.filterMap g).Nodup := by
  intro l
  induction l with
  | nil => intro _ _; simp
  | cons a rest ih =>
    intro hnd hinj
    have hrest := ih (List.nodup_cons.1 hnd).2
      (fun a1 h1 a2 h2 => hinj a1 (List.mem_cons_of_mem _ h1) a2 (List.mem_cons_of_mem _ h2))
    rw [List.filterMap_cons]
    cases hg : g a with
    | none => exact hrest
    | some b =>
      refine List.nodup_cons.2 ⟨fun hmem => ?_, hrest⟩
      obtain ⟨a2, ha2, hb⟩ := List.mem_filterMap.1 hmem
      have := hinj a (List.mem_cons_self _ _) a2 (List.mem_cons_of_mem _ ha2) b hg hb
      exact (List.nodup_cons.1 hnd).1 (this ▸ ha2)

/-- C9, as stated, fails: the specification's own genesis scenario lists "USD"
twice, is accepted on the empty state, and its deltas repeat the key of the
pool account of "USD" among the account-create deltas and the design key of
"USD" among the design deltas. -/
theorem create_keys_repeat_counterexample :
    scenarioGenesis.Process demoEnv 0 emptyState = (scenarioDeltas, none, none) ∧
    ¬ (accountKeys scenarioDeltas).Nodup ∧ ¬ (designKeys scenarioDeltas).Nodup :=
  ⟨by decide, by decide, by decide⟩

/-- C9, amended: a successful `Process` of the register processor emits no two
account-create deltas with one key and no two design deltas with one key. A
successful `Process` of the genesis processor emits one design delta per entry,
at the design key of the entry's CurrencyID, and as account-create deltas the
founding account followed by one pool account per entry; when the fact lists
every CurrencyID once and distinct currencies and accounts have distinct keys,
no two account-create deltas share a key and no two design deltas share one. -/
theorem create_keys_distinct (env : Env) (op : GenesisCurrencies) (ctx : Context)
    (get : GetStateFunc) (D : List StateMergeValue) (fact : GenesisCurrenciesFact)
    (F : Address)
    (h : op.Process env ctx get = (D, none, none))
    (hfact : op.Fact = .genesisCurrencies fact)
    (hF : env.factAddress fact = .ok F) :
    designKeys D = fact.cs.map (fun c => env.StateKeyCurrencyDesign c.amount.Currency) ∧
    accountKeys D = env.StateKeyAccount F ::
      (fact.cs.map (fun c => c.amount.Currency)).filterMap (poolAccountKey env) ∧
    (∀ c ∈ fact.cs, (poolAccountKey env c.amount.Currency).isSome) ∧
    ((fact.cs.map (fun c => c.amount.Currency)).Nodup →
      (∀ c1 ∈ fact.cs.map (fun c => c.amount.Currency),
        ∀ c2 ∈ fact.cs.map (fun c => c.amount.Currency),
        env.StateKeyCurrencyDesign c1 = env.StateKeyCurrencyDesign c2 → c1 = c2) →
      (∀ c1 ∈ fact.cs.map (fun c => c.amount.Currency),
        ∀ c2 ∈ fact.cs.map (fun c => c.amount.Currency),
        ∀ k, poolAccountKey env c1 = some k → poolAccountKey env c2 = some k → c1 = c2) →
      (∀ c ∈ fact.cs.map (fun c => c.amount.Currency),
        poolAccountKey env c ≠ some (env.StateKeyAccount F)) →
      (accountKeys D).Nodup ∧ (designKeys D).Nodup) ∧
    (∀ (opp : CurrencyRegisterProcessor) (ctx2 : Context) (op2 : Operation)
        (get2 : GetStateFunc) (D2 : List StateMergeValue),
      opp.Process env ctx2 op2 get2 = (D2, none, none) →
      (accountKeys D2).Nodup ∧ (designKeys D2).Nodup) := by
  obtain ⟨fact2, F2, ac, hfact2, hF2, -, ⟨-, -, hpools⟩, rfl⟩ :=
    genesis_Process_accepted env op ctx get D h
  obtain rfl : fact2 = fact := by
    rw [hfact] at hfact2
    exact (Fact.genesisCurrencies.inj hfact2).symm
  obtain rfl : F2 = F := by
    rw [hF] at hF2
    exact (Except.ok.inj hF2).symm
  have hd : designKeys (genesisDeltas env F2 ac fact2.cs) =
      fact2.cs.map (fun c => env.StateKeyCurrencyDesign c.amount.Currency) := by
    simp [genesisDeltas, designKeys, designKeys_entries]
  have ha : accountKeys (genesisDeltas env F2 ac fact2.cs) = env.StateKeyAccount F2 ::
      (fact2.cs.map (fun c => c.amount.Currency)).filterMap (poolAccountKey env) := by
    simp only [genesisDeltas, accountKeys, accountKeys_entries]
  refine ⟨hd, ha, ?_, ?_, ?_⟩
  · intro c hc
    obtain ⟨z, hz, -, -⟩ := hpools c hc
    simp [poolAccountKey, hz]
  · intro hnd hD hP hFP
    rw [hd, ha]
    refine ⟨List.nodup_cons.2 ⟨fun hmem => ?_, nodup_filterMap_on _ _ hnd hP⟩, ?_⟩
    · obtain ⟨c, hc, hk⟩ := List.mem_filterMap.1 hmem
      exact hFP c hc hk
    · have := List.Nodup.map_on hD hnd
      simpa [List.map_map] using this
  · intro opp ctx2 op2 get2 D2 h2
    unfold CurrencyRegisterProcessor.Process at h2
    split at h2
    · rename_i f2 _
      cases hc : createZeroAccount env f2.currency.amount.Currency get2 with
      | error e => simp [hc] at h2
      | ok l =>
        obtain ⟨z, -, -, -, rfl⟩ := (createZeroAccount_ok_iff env _ get2 l).1 hc
        simp only [hc, zeroAccountDeltas, Prod.mk.injEq, and_true] at h2
        subst h2
        simp [accountKeys, designKeys]
    · simp at h2

/-- C9, worked: a genesis fact listing "USD" and "EUR" once each is accepted
and no key of a create delta repeats. -/
theorem create_keys_distinct_witness :
    (accountKeys distinctDeltas).Nodup ∧ (designKeys distinctDeltas).Nodup :=
  (create_keys_distinct demoEnv distinctGenesis 0 emptyState distinctDeltas distinctFact "F"
    (by decide) rfl rfl).2.2.2.1 (by decide) (by decide) (by decide) (by decide)

/-! ## Zero-account conflicts in the two processors -/

theorem createZeroAccount_error_iff (env : Env) (cid : CurrencyID) (get : GetStateFunc) :
    (∃ e, createZeroAccount env cid get = .error e) ↔
      ¬ ∃ z, env.ZeroAccount cid = .ok z ∧ absent get (env.StateKeyAccount z.Address) ∧
        absent get (env.StateKeyBalance z.Address cid) := by
  constructor
  · rintro ⟨e, he⟩ hz
    rw [createZeroAccount_ok_poolDeltas env cid get hz] at he
    cases he
  · exact createZeroAccount_error_of_not env cid get

theorem createZeroAccount_conflict_of_account (env : Env) (cid : CurrencyID)
    (get : GetStateFunc) (z : Account) (hz : env.ZeroAccount cid = .ok z)
    (hp : present get (env.StateKeyAccount z.Address)) :
    createZeroAccount env cid get = .error (.conflictingState "key of zero account") := by
  unfold createZeroAccount
  rw [hz]
  simp only [notExistsState_of_present _ _ _ hp]

/-- C11: for an operation with a `CurrencyRegisterFact` for CurrencyID `c`,
processed against a state in which the account key of the pool account of `c`
is present, the register `Process` returns a non-nil error, a nil rejection
reason and no deltas. `Process` returns a non-nil error exactly when the fact is
not a `CurrencyRegisterFact` or the zero-account bootstrapping fails, and never
together with deltas or a rejection reason. -/
theorem register_Process_fatal (env : Env) (opp : CurrencyRegisterProcessor)
    (ctx : Context) (op : Operation) (get : GetStateFunc) :
    (∀ fact z, op.Fact = .currencyRegister fact →
      env.ZeroAccount fact.currency.amount.Currency = .ok z →
      present get (env.StateKeyAccount z.Address) →
      opp.Process env ctx op get =
        ([], none, some (.reason "failed to create zero account, %q: %w"
          [fact.currency.amount.Currency] (.conflictingState "key of zero account")))) ∧
    ((opp.Process env ctx op get).2.2 ≠ none ↔
      (¬ ∃ fact, op.Fact = .currencyRegister fact) ∨
      ∃ fact, op.Fact = .currencyRegister fact ∧
        ¬ ∃ z, env.ZeroAccount fact.currency.amount.Currency = .ok z ∧
          absent get (env.StateKeyAccount z.Address) ∧
          absent get (env.StateKeyBalance z.Address fact.currency.amount.Currency)) ∧
    ((opp.Process env ctx op get).2.2 ≠ none →
      (opp.Process env ctx op get).1 = [] ∧ (opp.Process env ctx op get).2.1 = none) := by
  refine ⟨?_, ?_, ?_⟩
  · intro fact z hfact hz hp
    have hc := (createZeroAccount_conflict_of_account env _ get z hz hp)
    simp only [CurrencyRegisterProcessor.Process, hfact, hc]
  · cases hfact : op.Fact with
    | genesisCurrencies f => simp [CurrencyRegisterProcessor.Process, hfact]
    | other tag => simp [CurrencyRegisterProcessor.Process, hfact]
    | currencyRegister fact =>
      have hiff := createZeroAccount_error_iff env fact.currency.amount.Currency get
      cases hc : createZeroAccount env fact.currency.amount.Currency get with
      | error e =>
        have hno := hiff.1 ⟨e, hc⟩
        simp only [CurrencyRegisterProcessor.Process, hfact, hc, ne_eq, reduceCtorEq,
          not_false_eq_true, Fact.currencyRegister.injEq, exists_eq', not_true_eq_false,
          exists_eq_left', false_or, true_iff]
        exact hno
      | ok l =>
        obtain ⟨z, hz, ha, hb, rfl⟩ := (createZeroAccount_ok_iff env _ get l).1 hc
        have hyes : ∃ z, env.ZeroAccount fact.currency.amount.Currency = .ok z ∧
            absent get (env.StateKeyAccount z.Address) ∧
            absent get (env.StateKeyBalance z.Address fact.currency.amount.Currency) :=
          ⟨z, hz, ha, hb⟩
        simp only [CurrencyRegisterProcessor.Process, hfact, hc, zeroAccountDeltas, ne_eq,
          not_true_eq_false, Fact.currencyRegister.injEq, exists_eq', exists_eq_left',
          false_or, false_iff, not_not]
        exact hyes
  · cases hfact : op.Fact with
    | genesisCurrencies f => simp [CurrencyRegisterProcessor.Process, hfact]
    | other tag => simp [CurrencyRegisterProcessor.Process, hfact]
    | currencyRegister fact =>
      cases hc : createZeroAccount env fact.currency.amount.Currency get with
      | error e => simp [CurrencyRegisterProcessor.Process, hfact, hc]
      | ok l =>
        obtain ⟨z, -, -, -, rfl⟩ := (createZeroAccount_ok_iff env _ get l).1 hc
        simp [CurrencyRegisterProcessor.Process, hfact, hc, zeroAccountDeltas]

/-- C11, worked: the pool account of "USD" is already in the state, and the
"USD" registration fails fatally in `Process`. -/
theorem register_Process_fatal_witness :
    demoProcessor.Process demoEnv 0 usdRegister (stateOf ["A:account", "USD-Xmca:account"]) =
      ([], none, some (.reason "failed to create zero account, %q: %w" ["USD"]
        (.conflictingState "key of zero account"))) :=
  (register_Process_fatal demoEnv demoProcessor 0 usdRegister
    (stateOf ["A:account", "USD-Xmca:account"])).1 { currency := usdDesign }
    { address := "USD-Xmca", keys := none } rfl rfl (by decide)

/-- C12: the genesis processor does not do what the claim asks. In the
specification's genesis scenario, with the founding-account, design and balance
checks passing and the pool account of "USD" already in the state, the genesis
`Process` returns the zero-account conflict as a rejection reason with a nil
error, while the register `Process`, for the same conflict and with the same
message, returns it as the error with a nil rejection reason. -/
theorem genesis_pool_conflict_not_fatal :
    absent (stateOf ["USD-Xmca:account"]) (demoEnv.StateKeyAccount "F") ∧
    (∀ c ∈ scenarioFact.cs,
      absent (stateOf ["USD-Xmca:account"]) (demoEnv.StateKeyCurrencyDesign c.amount.Currency) ∧
      absent (stateOf ["USD-Xmca:account"]) (demoEnv.StateKeyBalance "F" c.amount.Currency)) ∧
    present (stateOf ["USD-Xmca:account"]) (demoEnv.StateKeyAccount "USD-Xmca") ∧
    scenarioGenesis.Process demoEnv 0 (stateOf ["USD-Xmca:account"]) =
      ([], some (.reason "failed to create zero account, %q: %w" ["USD"]
        (.conflictingState "key of zero account")), none) ∧
    demoProcessor.Process demoEnv 0 usdRegister (stateOf ["USD-Xmca:account"]) =
      ([], none, some (.reason "failed to create zero account, %q: %w" ["USD"]
        (.conflictingState "key of zero account"))) :=
  ⟨by decide, by decide, by decide, by decide, by decide⟩

/-- What the genesis `Process` does on a zero-account conflict, for every
input: when the founding-account, design and balance checks all pass and the
founding account is built, but the pool account of one of the listed
CurrencyIDs is already in the state, it returns no deltas, a nil error and the
rejection reason "failed to create zero account" for an entry of the fact. The
register `Process` returns the same failure as the error instead. -/
theorem genesis_pool_conflict_rejects (env : Env) (op : GenesisCurrencies) (ctx : Context)
    (get : GetStateFunc) (fact : GenesisCurrenciesFact) (F : Address) (ac : Account)
    (c0 : CurrencyDesign) (z0 : Account)
    (hfact : op.Fact = .genesisCurrencies fact)
    (hF : env.factAddress fact = .ok F)
    (hac : env.NewAccount F fact.keys = .ok ac)
    (hacc : absent get (env.StateKeyAccount F))
    (hentries : ∀ c ∈ fact.cs, absent get (env.StateKeyCurrencyDesign c.amount.Currency) ∧
      absent get (env.StateKeyBalance F c.amount.Currency))
    (hc0 : c0 ∈ fact.cs)
    (hz0 : env.ZeroAccount c0.amount.Currency = .ok z0)
    (hpool : present get (env.StateKeyAccount z0.Address)) :
    ∃ c ∈ fact.cs, ∃ e,
      op.Process env ctx get =
        ([], some (.reason "failed to create zero account, %q: %w" [c.amount.Currency] e),
          none) := by
  obtain ⟨gas, sts, hready, hproc⟩ :=
    genesis_Process_past_checks env op ctx get fact F ac hfact hF hac hacc hentries
  have hbad : ∃ c ∈ fact.cs.map (fun c => ({ c with genesisAccount := F } : CurrencyDesign)),
      ¬ ∃ z, env.ZeroAccount c.amount.Currency = .ok z ∧
        absent get (env.StateKeyAccount z.Address) ∧
        absent get (env.StateKeyBalance z.Address c.amount.Currency) := by
    refine ⟨_, List.mem_map.2 ⟨c0, hc0, rfl⟩, ?_⟩
    rintro ⟨z, hz, ha, -⟩
    have hzz : z = z0 := by
      have h := hz.symm.trans hz0
      exact Except.ok.inj h
    subst hzz
    exact not_absent_of_present _ _ hpool ha
  obtain ⟨c, hc, e, he⟩ := genesisEmitLoop_rejects env F get gas sts _
    [NewAccountStateMergeValue (env.StateKeyAccount F) (NewAccountStateValue ac)] hready hbad
  obtain ⟨c1, hc1, rfl⟩ := List.mem_map.1 hc
  exact ⟨c1, hc1, e, by rw [hproc, he]⟩

/-- The same on the scenario with the pool account of "USD" in the state. -/
theorem genesis_pool_conflict_rejects_witness :
    ∃ c ∈ scenarioFact.cs, ∃ e,
      scenarioGenesis.Process demoEnv 0 (stateOf ["USD-Xmca:account"]) =
        ([], some (.reason "failed to create zero account, %q: %w" [c.amount.Currency] e),
          none) :=
  genesis_pool_conflict_rejects demoEnv scenarioGenesis 0 (stateOf ["USD-Xmca:account"])
    scenarioFact "F" { address := "F", keys := some ["K"] } (mkDesign "USD" 1000 "X")
    { address := "USD-Xmca", keys := none } rfl rfl rfl (by decide) (by decide) (by decide) rfl
    (by decide)

/-- C13: when the account key of the founding address `F` is already present,
`Process` returns the rejection reason "genesis account already exists", a nil
error and no deltas, whatever the state of the entries' keys. -/
theorem genesis_founding_account_exists (env : Env) (op : GenesisCurrencies) (ctx : Context)
    (get : GetStateFunc) (fact : GenesisCurrenciesFact) (F : Address)
    (hfact : op.Fact = .genesisCurrencies fact)
    (hF : env.factAddress fact = .ok F)
    (hpresent : present get (env.StateKeyAccount F)) :
    op.Process env ctx get =
      ([], some (.reason "genesis account already exists, %q: %w" [F]
        (.conflictingState "key of genesis account")), none) := by
  simp only [GenesisCurrencies.Process, hfact, hF, notExistsState_of_present _ _ _ hpresent]

/-- C13, worked: the founding account "F" is in the state, along with the
design of "USD". -/
theorem genesis_founding_account_exists_witness :
    scenarioGenesis.Process demoEnv 0 (stateOf ["F:account", "currencydesign:USD"]) =
      ([], some (.reason "genesis account already exists, %q: %w" ["F"]
        (.conflictingState "key of genesis account")), none) :=
  genesis_founding_account_exists demoEnv scenarioGenesis 0
    (stateOf ["F:account", "currencydesign:USD"]) scenarioFact "F" rfl rfl (by decide)

/-! ## Genesis-currencies processor: what each entry's deltas carry -/

theorem genesisDeltas_entry_at (env : Env) (F : Address) (ac : Account)
    (cs : List CurrencyDesign)
    (hpools : ∀ c ∈ cs, ∃ z, env.ZeroAccount c.amount.Currency = .ok z)
    (i : Nat) (hi : i < cs.length) (j : Nat) (hj : j < 4) :
    (genesisDeltas env F ac cs)[(j + 1) + 4 * i]? = (genesisEntryDeltas env F cs[i])[j]? := by
  have hlen : ∀ c ∈ cs, (genesisEntryDeltas env F c).length = 4 := by
    intro c hc
    obtain ⟨z, hz⟩ := hpools c hc
    rw [genesisEntryDeltas_of_pool env F c z hz]
    rfl
  have := getElem?_flatMap_four (genesisEntryDeltas env F) cs hlen i hi j hj
  rw [← this]
  have e : j + 1 + 4 * i = (4 * i + j) + 1 := by omega
  rw [e]
  simp [genesisDeltas]

/-- C14: for an accepted `GenesisCurrencies` operation with founding address
`F`, the design delta emitted for entry `i` (position `2 + 4i`) carries a design
whose genesis account is `F` and whose amount and policy are those of entry `i`
of the fact, whatever genesis account that entry named and whatever other
entries share its CurrencyID. The fact is a value that `Process` only reads. -/
theorem genesis_design_owner (env : Env) (op : GenesisCurrencies) (ctx : Context)
    (get : GetStateFunc) (D : List StateMergeValue)
    (h : op.Process env ctx get = (D, none, none)) :
    ∃ fact F, op.Fact = .genesisCurrencies fact ∧ env.factAddress fact = .ok F ∧
      ∀ (i : Nat) (hi : i < fact.cs.length),
        ∃ d : CurrencyDesign,
          D[2 + 4 * i]? = some (NewCurrencyDesignStateMergeValue
            (env.StateKeyCurrencyDesign fact.cs[i].amount.Currency)
            (NewCurrencyDesignStateValue d)) ∧
          d.genesisAccount = F ∧ d.amount = fact.cs[i].amount ∧
          d.policy = fact.cs[i].policy := by
  obtain ⟨fact, F, ac, hfact, hF, -, ⟨-, -, hpools⟩, rfl⟩ :=
    genesis_Process_accepted env op ctx get D h
  refine ⟨fact, F, hfact, hF, ?_⟩
  intro i hi
  obtain ⟨z, hz, -, -⟩ := hpools fact.cs[i] (List.getElem_mem _)
  have hat := genesisDeltas_entry_at env F ac fact.cs
    (fun c hc => (hpools c hc).imp (fun _ hz => hz.1)) i hi 1 (by omega)
  rw [genesisEntryDeltas_of_pool env F _ z hz] at hat
  exact ⟨{ fact.cs[i] with genesisAccount := F }, by simpa using hat, rfl, rfl, rfl⟩

/-- C14, worked: in the scenario the entries name "X", "Y" and "X" as genesis
accounts, and every emitted design is owned by "F". -/
theorem genesis_design_owner_witness :
    ∃ fact F, scenarioGenesis.Fact = .genesisCurrencies fact ∧
      demoEnv.factAddress fact = .ok F ∧
      ∀ (i : Nat) (hi : i < fact.cs.length),
        ∃ d : CurrencyDesign,
          scenarioDeltas[2 + 4 * i]? = some (NewCurrencyDesignStateMergeValue
            (demoEnv.StateKeyCurrencyDesign fact.cs[i].amount.Currency)
            (NewCurrencyDesignStateValue d)) ∧
          d.genesisAccount = F ∧ d.amount = fact.cs[i].amount ∧
          d.policy = fact.cs[i].policy :=
  genesis_design_owner demoEnv scenarioGenesis 0 emptyState scenarioDeltas
    scenarioGenesis_Process

/-- C17: for an accepted `GenesisCurrencies` operation, the balance delta
emitted for entry `i` (position `1 + 4i`) has the key `StateKeyBalance(F, c_i)`
and carries the amount of `c_i` with magnitude `0 + a_i`, which is entry `i`'s
own amount and no running total; so a CurrencyID listed `k` times gets `k`
separate balance deltas with one key, carrying `a_1 .. a_k`. -/
theorem genesis_balance_delta_own_amount (env : Env) (op : GenesisCurrencies)
    (ctx : Context) (get : GetStateFunc) (D : List StateMergeValue)
    (h : op.Process env ctx get = (D, none, none)) :
    ∃ fact F, op.Fact = .genesisCurrencies fact ∧ env.factAddress fact = .ok F ∧
      ∀ (i : Nat) (hi : i < fact.cs.length),
        D[1 + 4 * i]? = some (NewBalanceStateMergeValue
          (env.StateKeyBalance F fact.cs[i].amount.Currency)
          (NewBalanceStateValue
            ((NewZeroAmount fact.cs[i].amount.Currency).WithBig
              ((NewZeroAmount fact.cs[i].amount.Currency).Big + fact.cs[i].amount.Big)))) ∧
        (NewZeroAmount fact.cs[i].amount.Currency).WithBig
            ((NewZeroAmount fact.cs[i].amount.Currency).Big + fact.cs[i].amount.Big) =
          fact.cs[i].amount := by
  obtain ⟨fact, F, ac, hfact, hF, -, ⟨-, -, hpools⟩, rfl⟩ :=
    genesis_Process_accepted env op ctx get D h
  refine ⟨fact, F, hfact, hF, ?_⟩
  intro i hi
  obtain ⟨z, hz, -, -⟩ := hpools fact.cs[i] (List.getElem_mem _)
  have hat := genesisDeltas_entry_at env F ac fact.cs
    (fun c hc => (hpools c hc).imp (fun _ hz => hz.1)) i hi 0 (by omega)
  rw [genesisEntryDeltas_of_pool env F _ z hz] at hat
  have hown : (NewZeroAmount fact.cs[i].amount.Currency).WithBig
      ((NewZeroAmount fact.cs[i].amount.Currency).Big + fact.cs[i].amount.Big) =
      fact.cs[i].amount := by
    cases hc : fact.cs[i].amount
    simp [NewZeroAmount, Amount.WithBig, Amount.Big, Amount.Currency]
  refine ⟨?_, hown⟩
  rw [hown]
  simpa using hat

/-- C17, worked: in the scenario "USD" is listed with 1000 and with 500, and
each entry's balance delta carries the entry's own amount. -/
theorem genesis_balance_delta_own_amount_witness :
    ∃ fact F, scenarioGenesis.Fact = .genesisCurrencies fact ∧
      demoEnv.factAddress fact = .ok F ∧
      ∀ (i : Nat) (hi : i < fact.cs.length),
        scenarioDeltas[1 + 4 * i]? = some (NewBalanceStateMergeValue
          (demoEnv.StateKeyBalance F fact.cs[i].amount.Currency)
          (NewBalanceStateValue
            ((NewZeroAmount fact.cs[i].amount.Currency).WithBig
              ((NewZeroAmount fact.cs[i].amount.Currency).Big + fact.cs[i].amount.Big)))) ∧
        (NewZeroAmount fact.cs[i].amount.Currency).WithBig
            ((NewZeroAmount fact.cs[i].amount.Currency).Big + fact.cs[i].amount.Big) =
          fact.cs[i].amount :=
  genesis_balance_delta_own_amount demoEnv scenarioGenesis 0 emptyState scenarioDeltas
    scenarioGenesis_Process

theorem scenario_second_usd_delta :
    scenarioDeltas[5]? = some (NewBalanceStateMergeValue "F-USD:balance"
      (.balance { big := 500, cid := "USD" })) := by
  decide

/-! ## `PreProcess` and `Process` of the register processor read different keys -/

/-- C18: acceptance by `PreProcess` does not guarantee that `Process`
succeeds. With every `PreProcess` check passing and the pool-account key of the
CurrencyID present, or only its pool-balance key, `PreProcess` accepts and
`Process` on the same state returns an error and no deltas. `PreProcess` reads
the state only at the design key, the genesis account, contract and balance keys
and the receiver's account and contract keys; `Process` depends neither on the
processor nor on the signatures and reads the state only at the pool-account
and pool-balance keys. -/
theorem register_PreProcess_does_not_guard_Process :
    ((demoProcessor.PreProcess demoEnv 0 usdRegister
        (stateOf ["A:account", "USD-Xmca:account"])).2 = (none, none) ∧
      demoProcessor.Process demoEnv 0 usdRegister
          (stateOf ["A:account", "USD-Xmca:account"]) =
        ([], none, some (.reason "failed to create zero account, %q: %w" ["USD"]
          (.conflictingState "key of zero account")))) ∧
    ((demoProcessor.PreProcess demoEnv 0 usdRegister
        (stateOf ["A:account", "USD-Xmca-USD:balance"])).2 = (none, none) ∧
      demoProcessor.Process demoEnv 0 usdRegister
          (stateOf ["A:account", "USD-Xmca-USD:balance"]) =
        ([], none, some (.reason "failed to create zero account, %q: %w" ["USD"]
          (.conflictingState "key of zero account balance")))) ∧
    (∀ (env : Env) (opp : CurrencyRegisterProcessor) (ctx : Context) (nop : CurrencyRegister)
        (fact : CurrencyRegisterFact) (get get2 : GetStateFunc),
      nop.fact = .currencyRegister fact →
      get2 (env.StateKeyCurrencyDesign fact.currency.amount.Currency) =
        get (env.StateKeyCurrencyDesign fact.currency.amount.Currency) →
      get2 (env.StateKeyAccount fact.currency.genesisAccount) =
        get (env.StateKeyAccount fact.currency.genesisAccount) →
      get2 (env.StateKeyContractAccount fact.currency.genesisAccount) =
        get (env.StateKeyContractAccount fact.currency.genesisAccount) →
      get2 (env.StateKeyBalance fact.currency.genesisAccount fact.currency.amount.Currency) =
        get (env.StateKeyBalance fact.currency.genesisAccount fact.currency.amount.Currency) →
      (∀ r, fact.currency.Policy.Feeer.Receiver = some r →
        get2 (env.StateKeyAccount r) = get (env.StateKeyAccount r) ∧
        get2 (env.StateKeyContractAccount r) = get (env.StateKeyContractAccount r)) →
      opp.PreProcess env ctx (.currencyRegister nop) get2 =
        opp.PreProcess env ctx (.currencyRegister nop) get) ∧
    (∀ (env : Env) (opp opp2 : CurrencyRegisterProcessor) (ctx ctx2 : Context)
        (op op2 : Operation) (get get2 : GetStateFunc),
      op2.Fact = op.Fact →
      (∀ fact z, op.Fact = .currencyRegister fact →
        env.ZeroAccount fact.currency.amount.Currency = .ok z →
        get2 (env.StateKeyAccount z.Address) = get (env.StateKeyAccount z.Address) ∧
        get2 (env.StateKeyBalance z.Address fact.currency.amount.Currency) =
          get (env.StateKeyBalance z.Address fact.currency.amount.Currency)) →
      opp2.Process env ctx2 op2 get2 = opp.Process env ctx op get) := by
  refine ⟨⟨by decide, by decide⟩, ⟨by decide, by decide⟩, ?_, ?_⟩
  · intro env opp ctx nop fact get get2 hfact h1 h2 h3 h4 h5
    cases hr : fact.currency.Policy.Feeer.Receiver with
    | none =>
      simp only [CurrencyRegisterProcessor.PreProcess, Operation.Fact, hfact, hr,
        checkNotExistsState, checkExistsState, h1, h2, h3, h4]
    | some r =>
      obtain ⟨h6, h7⟩ := h5 r hr
      simp only [CurrencyRegisterProcessor.PreProcess, Operation.Fact, hfact, hr,
        checkNotExistsState, checkExistsState, h1, h2, h3, h4, h6, h7]
  · intro env opp opp2 ctx ctx2 op op2 get get2 hop hagree
    cases hfact : op.Fact with
    | genesisCurrencies f =>
      simp only [CurrencyRegisterProcessor.Process, hop, hfact]
    | other tag =>
      simp only [CurrencyRegisterProcessor.Process, hop, hfact]
    | currencyRegister fact =>
      have hz : createZeroAccount env fact.currency.amount.Currency get2 =
          createZeroAccount env fact.currency.amount.Currency get := by
        unfold createZeroAccount
        cases hza : env.ZeroAccount fact.currency.amount.Currency with
        | error e => rfl
        | ok z =>
          obtain ⟨ha, hb⟩ := hagree fact z hfact hza
          simp only [notExistsState, ha, hb]
      simp only [CurrencyRegisterProcessor.Process, hop, hfact, hz]

/-- C18, worked: the register `Process` gives the same result for the states
"A plus the pool account of USD" and "the pool account of USD alone", which
agree on the two pool keys. -/
theorem register_PreProcess_does_not_guard_Process_witness :
    demoProcessor.Process demoEnv 0 usdRegister (stateOf ["USD-Xmca:account"]) =
      demoProcessor.Process demoEnv 0 usdRegister (stateOf ["A:account", "USD-Xmca:account"]) :=
  register_PreProcess_does_not_guard_Process.2.2.2 demoEnv demoProcessor demoProcessor 0 0
    usdRegister usdRegister (stateOf ["A:account", "USD-Xmca:account"])
    (stateOf ["USD-Xmca:account"]) rfl
    (fun fact z hfact hz => by
      have hf : fact = { currency := usdDesign } := by
        simpa [usdRegister, usdRegisterOp, Operation.Fact] using hfact.symm
      subst hf
      have hzz : z = { address := "USD-Xmca", keys := none } := by
        simpa [demoEnv, usdDesign, Amount.Currency] using hz.symm
      subst hzz
      exact ⟨by decide, by decide⟩)

/-! ## Processor constructor and pool -/

theorem NewCurrencyRegisterProcessor_eval (deps : ProcessorDeps) (threshold : Threshold)
    (height : Height) (get : GetStateFunc)
    (pre proc : NewOperationProcessorProcessFunc) (pool : ProcessorPool)
    (opp0 : CurrencyRegisterProcessor) (b : BaseOperationProcessor)
    (hpool : pool.Get.1 = .processor opp0)
    (hbase : deps.NewBaseOperationProcessor height get pre proc = .ok b) :
    NewCurrencyRegisterProcessor deps threshold height get pre proc pool =
      (match (get deps.SuffrageStateKey).err with
        | some err =>
          (none, some (.stringErrorWrap "failed to create new CurrencyRegisterProcessor" err))
        | none =>
          match (get deps.SuffrageStateKey).found, (get deps.SuffrageStateKey).st with
          | true, some i =>
            match i.value with
            | some (.suffrageNodes sufstv) =>
              match deps.Suffrage sufstv with
              | .error _ =>
                (none, some (.stringErrorWrap "failed to create new CurrencyRegisterProcessor"
                  (.stopProcessingRetry "failed to get suffrage from state")))
              | .ok suf =>
                (some { suffrage := some suf, threshold := threshold,
                        baseOperationProcessor := some b }, none)
            | _ => (none, some (.runtimeFault "interface conversion"))
          | _, _ =>
            (none, some (.stringErrorWrap "failed to create new CurrencyRegisterProcessor"
              (.stopProcessingRetry "empty state"))),
       pool.Get.2) := by
  unfold NewCurrencyRegisterProcessor
  cases hg : pool.Get with
  | mk nopp pool2 =>
    rw [hg] at hpool
    simp only at hpool
    subst hpool
    simp only [hbase]
    repeat' split
    all_goals rfl

theorem NewCurrencyRegisterProcessor_one_result (deps : ProcessorDeps) (threshold : Threshold)
    (height : Height) (get : GetStateFunc)
    (pre proc : NewOperationProcessorProcessFunc) (pool : ProcessorPool) :
    ((NewCurrencyRegisterProcessor deps threshold height get pre proc pool).1.1 = none ∧
      (NewCurrencyRegisterProcessor deps threshold height get pre proc pool).1.2 ≠ none) ∨
    ((NewCurrencyRegisterProcessor deps threshold height get pre proc pool).1.1 ≠ none ∧
      (NewCurrencyRegisterProcessor deps threshold height get pre proc pool).1.2 = none) := by
  unfold NewCurrencyRegisterProcessor
  cases hg : pool.Get with
  | mk nopp pool2 =>
    simp only
    repeat' split
    all_goals simp

/-- C16: once the pool has handed out a processor and the base processor is
built, the constructor made by `NewCurrencyRegisterProcessor` hands on an error
of the suffrage lookup (wrapped in its context), fails with an error wrapping
`ErrStopProcessingRetry` when the lookup reports no error but the entry is not
found or is nil, and also when no suffrage is derived from the stored suffrage
nodes, and returns a processor and no error when the suffrage is derived. On
every input it returns either an error and no processor, or a processor and no
error. -/
theorem constructor_failure_modes (deps : ProcessorDeps) (threshold : Threshold)
    (height : Height) (get : GetStateFunc)
    (pre proc : NewOperationProcessorProcessFunc) (pool : ProcessorPool)
    (opp0 : CurrencyRegisterProcessor) (b : BaseOperationProcessor)
    (hpool : pool.Get.1 = .processor opp0)
    (hbase : deps.NewBaseOperationProcessor height get pre proc = .ok b) :
    (∀ e, (get deps.SuffrageStateKey).err = some e →
      (NewCurrencyRegisterProcessor deps threshold height get pre proc pool).1 =
        (none, some (.stringErrorWrap "failed to create new CurrencyRegisterProcessor" e))) ∧
    ((get deps.SuffrageStateKey).err = none →
      ((get deps.SuffrageStateKey).found = false ∨ (get deps.SuffrageStateKey).st = none) →
      ∃ e, (NewCurrencyRegisterProcessor deps threshold height get pre proc pool).1 =
          (none, some e) ∧ e.isStopProcessingRetry = true) ∧
    (∀ i n e0, (get deps.SuffrageStateKey).err = none →
      (get deps.SuffrageStateKey).found = true → (get deps.SuffrageStateKey).st = some i →
      i.value = some (.suffrageNodes n) → deps.Suffrage n = .error e0 →
      ∃ e, (NewCurrencyRegisterProcessor deps threshold height get pre proc pool).1 =
          (none, some e) ∧ e.isStopProcessingRetry = true) ∧
    (∀ i n suf, (get deps.SuffrageStateKey).err = none →
      (get deps.SuffrageStateKey).found = true → (get deps.SuffrageStateKey).st = some i →
      i.value = some (.suffrageNodes n) → deps.Suffrage n = .ok suf →
      (NewCurrencyRegisterProcessor deps threshold height get pre proc pool).1 =
        (some { suffrage := some suf, threshold := threshold,
                baseOperationProcessor := some b }, none)) ∧
    (∀ (get2 : GetStateFunc) (height2 : Height)
        (pre2 proc2 : NewOperationProcessorProcessFunc) (pool2 : ProcessorPool),
      ((NewCurrencyRegisterProcessor deps threshold height2 get2 pre2 proc2 pool2).1.1 = none ∧
        (NewCurrencyRegisterProcessor deps threshold height2 get2 pre2 proc2 pool2).1.2 ≠
          none) ∨
      ((NewCurrencyRegisterProcessor deps threshold height2 get2 pre2 proc2 pool2).1.1 ≠ none ∧
        (NewCurrencyRegisterProcessor deps threshold height2 get2 pre2 proc2 pool2).1.2 =
          none)) := by
  have heval := NewCurrencyRegisterProcessor_eval deps threshold height get pre proc pool opp0 b
    hpool hbase
  refine ⟨?_, ?_, ?_, ?_, ?_⟩
  · intro e he
    rw [heval, he]
  · intro he hnf
    rw [heval, he]
    refine ⟨.stringErrorWrap "failed to create new CurrencyRegisterProcessor"
      (.stopProcessingRetry "empty state"), ?_, rfl⟩
    rcases hnf with hnf | hnf
    · rw [hnf]
    · rw [hnf]
      cases (get deps.SuffrageStateKey).found <;> rfl
  · intro i n e0 he hf hs hv hsuf
    rw [heval, he, hf, hs]
    simp only [hv, hsuf]
    exact ⟨_, rfl, rfl⟩
  · intro i n suf he hf hs hv hsuf
    rw [heval, he, hf, hs]
    simp only [hv, hsuf]
  · intro get2 height2 pre2 proc2 pool2
    exact NewCurrencyRegisterProcessor_one_result deps threshold height2 get2 pre2 proc2 pool2

/-- C16, worked: against the empty state the constructor fails with an error
that wraps the retry signal. -/
theorem constructor_failure_modes_witness :
    ∃ e, (NewCurrencyRegisterProcessor demoDeps 67 10 emptyState none none []).1 =
        (none, some e) ∧ e.isStopProcessingRetry = true :=
  (constructor_failure_modes demoDeps 67 10 emptyState none none []
    { suffrage := none, threshold := 0 } { height := 10 } rfl rfl).2.1 rfl (Or.inl rfl)

/-- C15: `Close` leaves the instance with a nil suffrage and the threshold 0
and puts it into the pool, where the next `Get` finds it. Every processor
returned by a successful call of the constructor made by
`NewCurrencyRegisterProcessor(t)` against a state has the threshold `t` and the
suffrage derived from the suffrage entry of that state, whatever the pool held.
So when an instance is closed and the next constructor call takes it from the
pool, the processor it returns has the threshold and suffrage of that second
call only. -/
theorem processor_pool_reuse (deps : ProcessorDeps) :
    (∀ (opp : CurrencyRegisterProcessor) (pool : ProcessorPool),
      (opp.Close pool).1 = none ∧
      (opp.Close pool).2.1.suffrage = none ∧ (opp.Close pool).2.1.threshold = 0 ∧
      (opp.Close pool).2.2.Get = (.processor (opp.Close pool).2.1, pool)) ∧
    (∀ (t : Threshold) (height : Height) (get : GetStateFunc)
        (pre proc : NewOperationProcessorProcessFunc) (pool pool2 : ProcessorPool)
        (p : CurrencyRegisterProcessor),
      NewCurrencyRegisterProcessor deps t height get pre proc pool = ((some p, none), pool2) →
      p.threshold = t ∧
      ∃ i n suf, (get deps.SuffrageStateKey).st = some i ∧
        i.value = some (.suffrageNodes n) ∧ deps.Suffrage n = .ok suf ∧
        p.suffrage = some suf) ∧
    (∀ (t2 : Threshold) (height2 : Height) (get2 : GetStateFunc)
        (pre2 proc2 : NewOperationProcessorProcessFunc) (pool pool3 : ProcessorPool)
        (p1 p2 : CurrencyRegisterProcessor),
      NewCurrencyRegisterProcessor deps t2 height2 get2 pre2 proc2 (p1.Close pool).2.2 =
        ((some p2, none), pool3) →
      pool3 = pool ∧ p2.threshold = t2 ∧
      ∃ i n suf, (get2 deps.SuffrageStateKey).st = some i ∧
        i.value = some (.suffrageNodes n) ∧ deps.Suffrage n = .ok suf ∧
        p2.suffrage = some suf) := by
  have hctor : ∀ (t : Threshold) (height : Height) (get : GetStateFunc)
      (pre proc : NewOperationProcessorProcessFunc) (pool pool2 : ProcessorPool)
      (p : CurrencyRegisterProcessor),
      NewCurrencyRegisterProcessor deps t height get pre proc pool = ((some p, none), pool2) →
      pool2 = pool.Get.2 ∧ p.threshold = t ∧
      ∃ i n suf, (get deps.SuffrageStateKey).st = some i ∧
        i.value = some (.suffrageNodes n) ∧ deps.Suffrage n = .ok suf ∧
        p.suffrage = some suf := by
    intro t height get pre proc pool pool2 p h
    cases hg : pool.Get with
    | mk nopp rest =>
      cases nopp with
      | other tag =>
        simp [NewCurrencyRegisterProcessor, hg] at h
      | processor opp0 =>
        cases hb : deps.NewBaseOperationProcessor height get pre proc with
        | error e =>
          simp [NewCurrencyRegisterProcessor, hg, hb] at h
        | ok b =>
          have hpool : pool.Get.1 = .processor opp0 := by rw [hg]
          rw [NewCurrencyRegisterProcessor_eval deps t height get pre proc pool opp0 b hpool hb,
            hg] at h
          cases he : (get deps.SuffrageStateKey).err with
          | some e => simp [he] at h
          | none =>
            cases hf : (get deps.SuffrageStateKey).found with
            | false => simp [he, hf] at h
            | true =>
              cases hs : (get deps.SuffrageStateKey).st with
              | none => simp [he, hf, hs] at h
              | some i =>
                simp only [he, hf, hs] at h
                split at h
                · rename_i n hv
                  split at h
                  · simp at h
                  · rename_i suf hsuf
                    simp only [Prod.mk.injEq, Option.some.injEq, and_true] at h
                    obtain ⟨hp, hrest⟩ := h
                    subst hp
                    exact ⟨hrest.symm, rfl, i, n, suf, rfl, hv, hsuf, rfl⟩
                · simp at h
  refine ⟨?_, ?_, ?_⟩
  · intro opp pool
    exact ⟨rfl, rfl, rfl, rfl⟩
  · intro t height get pre proc pool pool2 p h
    exact (hctor t height get pre proc pool pool2 p h).2
  · intro t2 height2 get2 pre2 proc2 pool pool3 p1 p2 h
    obtain ⟨hp, hrest⟩ := hctor t2 height2 get2 pre2 proc2 _ pool3 p2 h
    exact ⟨hp, hrest⟩

/-- C15, worked: an instance that served the validators `["n1", "n2"]` at
threshold 67 is closed; the next constructor call, at threshold 80 against a
state whose suffrage is `["n3"]`, takes it from the pool and returns a
processor with threshold 80 and suffrage `["n3"]`. -/
theorem processor_pool_reuse_witness :
    NewCurrencyRegisterProcessor demoDeps 80 11 (suffrageState (some ["n3"])) none none
        (CurrencyRegisterProcessor.Close
          { suffrage := some ["n1", "n2"], threshold := 67,
            baseOperationProcessor := some { height := 10 } } []).2.2 =
      ((some { suffrage := some ["n3"], threshold := 80,
               baseOperationProcessor := some { height := 11 } }, none), []) ∧
    ([] : ProcessorPool) = [] ∧ (80 : Threshold) = 80 ∧
    ∃ i n suf, (suffrageState (some ["n3"]) demoDeps.SuffrageStateKey).st = some i ∧
      i.value = some (.suffrageNodes n) ∧ demoDeps.Suffrage n = .ok suf ∧
      (some ["n3"] : Option Suffrage) = some suf :=
  ⟨by decide,
   (processor_pool_reuse demoDeps).2.2 80 11 (suffrageState (some ["n3"])) none none [] []
    { suffrage := some ["n1", "n2"], threshold := 67,
      baseOperationProcessor := some { height := 10 } }
    { suffrage := some ["n3"], threshold := 80,
      baseOperationProcessor := some { height := 11 } } (by decide)⟩

end Currency

namespace Mongodbstorage

/-- C19: `NewBaseDoc` never fails and records `isHinted = true` exactly when
the data implements `hint.Hinter`; `M` never fails and returns a map that holds
"_e" (the encoder hint's string), "_hinted" (isHinted) and "d" (the data), holds
"_id" (the id) exactly when the id is not nil, and holds no other key; `ID`
returns the id given at construction. -/
theorem baseDoc_document (hintString : Hint → String) (id data : Value) (enc : Encoder) :
    (NewBaseDoc id data enc).2 = none ∧
    ((NewBaseDoc id data enc).1.isHinted = true ↔ data.isHinter = true) ∧
    (NewBaseDoc id data enc).1.ID = id ∧
    ((NewBaseDoc id data enc).1.M hintString).2 = none ∧
    BsonM.get ((NewBaseDoc id data enc).1.M hintString).1 "_e" =
      some (.string (hintString enc.Hint)) ∧
    BsonM.get ((NewBaseDoc id data enc).1.M hintString).1 "_hinted" =
      some (.bool data.isHinter) ∧
    BsonM.get ((NewBaseDoc id data enc).1.M hintString).1 "d" = some (.value data) ∧
    (id ≠ .nil → BsonM.get ((NewBaseDoc id data enc).1.M hintString).1 "_id" = some (.value id)) ∧
    (id = .nil → BsonM.get ((NewBaseDoc id data enc).1.M hintString).1 "_id" = none) ∧
    (BsonM.keys ((NewBaseDoc id data enc).1.M hintString).1).Nodup ∧
    (∀ k, k ∈ BsonM.keys ((NewBaseDoc id data enc).1.M hintString).1 ↔
      k = "_e" ∨ k = "_hinted" ∨ k = "d" ∨ (k = "_id" ∧ id ≠ .nil)) := by
  have hkeys : ∀ k, k ∈ BsonM.keys ((NewBaseDoc id data enc).1.M hintString).1 ↔
      k = "_e" ∨ k = "_hinted" ∨ k = "d" ∨ (k = "_id" ∧ id ≠ .nil) := by
    intro k
    by_cases hid : id = .nil
    · simp [NewBaseDoc, BaseDoc.M, BsonM.set, BsonM.keys, hid]
      tauto
    · simp [NewBaseDoc, BaseDoc.M, BsonM.set, BsonM.keys, hid]
      tauto
  refine ⟨rfl, Iff.rfl, rfl, rfl, ?_, ?_, ?_, ?_, ?_, ?_, hkeys⟩
  · by_cases hid : id = .nil <;>
      simp [NewBaseDoc, BaseDoc.M, BsonM.set, BsonM.get, Encoder.Hint, hid]
  · by_cases hid : id = .nil <;>
      simp [NewBaseDoc, BaseDoc.M, BsonM.set, BsonM.get, hid]
  · by_cases hid : id = .nil <;>
      simp [NewBaseDoc, BaseDoc.M, BsonM.set, BsonM.get, hid]
  · intro hid
    simp [NewBaseDoc, BaseDoc.M, BsonM.set, BsonM.get, hid]
  · intro hid
    simp [NewBaseDoc, BaseDoc.M, BsonM.set, BsonM.get, hid]
  · by_cases hid : id = .nil <;>
      simp [NewBaseDoc, BaseDoc.M, BsonM.set, BsonM.keys, hid]

/-- C19, worked: a document with the id "42" and hinted data holds the id
under "_id". -/
theorem baseDoc_document_witness :
    BsonM.get
        ((NewBaseDoc (.plain "42") (.hinter { name := "account", version := "v1" } "acc")
          { hint := { name := "bson", version := "v2" } }).1.M demoHintString).1 "_id" =
      some (.value (.plain "42")) :=
  (baseDoc_document demoHintString (.plain "42")
    (.hinter { name := "account", version := "v1" } "acc")
    { hint := { name := "bson", version := "v2" } }).2.2.2.2.2.2.2.1 (by decide)

end Mongodbstorage
